import Mathlib

/-!
Shallow embedding of `aurelia-style-binding-command-plugin`
(`src/dist/es2015/index.js`): the `InlineStyleObserver` and `StyleBinding`
classes, with the host environment (DOM style surface, the binding engine's
subscriber-collection and expression capabilities) modelled explicitly.

The mutable JS object graph is flattened into a single `World` record:
one target element (its inline style declaration list and the presence of
its `style` attribute), a heap of observers addressed by `Nat` ids together
with the per-element observer cache (`__style_observer__`), a heap of
`StyleBinding` records, and a heap of binding-source cells.  Methods become
functions `World → World × List Eff`, where the `Eff` trace records every
interaction with the outside (style writes, subscriber notifications,
expression evaluate/assign/bind/connect, mutation-observer lifecycle).
-/

/-- A JavaScript value as compared by strict equality (`===`): primitives
compare structurally, objects by reference identity (`obj id`). -/
inductive JSVal where
  | undef
  | null
  | str (s : String)
  | num (n : Int)
  | bool (b : Bool)
  | obj (id : Nat)
deriving DecidableEq, Repr

/-- DOMString conversion applied by the platform when a JS value is passed
where the style surface expects a string (`CSSStyleDeclaration.setProperty`). -/
def toDOMString : JSVal → String
  | .undef => "undefined"
  | .null => ""
  | .str s => s
  | .num n => toString n
  | .bool b => if b then "true" else "false"
  | .obj _ => "[object Object]"

/-- The element's inline style surface: the ordered list of declared
(property, value) pairs, as enumerated by `style[i]` / `style.length`. -/
def Style : Type := List (String × String)

instance : DecidableEq Style := inferInstanceAs (DecidableEq (List (String × String)))
instance : Repr Style := inferInstanceAs (Repr (List (String × String)))

/-- `style.getPropertyValue(p)`: the declared value, or `""` when absent. -/
def Style.getPropertyValue (st : Style) (p : String) : String :=
  match List.lookup p st with
  | some v => v
  | none => ""

/-- Insert or overwrite a declaration, keeping declaration order. -/
def Style.setPropRaw : Style → String → String → Style
  | [], p, v => [(p, v)]
  | (q, w) :: rest, p, v =>
    if q = p then (p, v) :: rest else (q, w) :: Style.setPropRaw rest p v

/-- `style.setProperty(p, value)`: the value is stringified; an empty string
removes the declaration, anything else inserts or overwrites it. -/
def Style.setProperty (st : Style) (p : String) (v : JSVal) : Style :=
  let s := toDOMString v
  if s = "" then List.filter (fun e => decide (e.1 ≠ p)) st
  else Style.setPropRaw st p s

/-- The regex `([A-Z])` of the source, as a character predicate. -/
def capitalMatcher (c : Char) : Bool := 'A' ≤ c && c ≤ 'Z'

/-- `replace(capitalMatcher, addHyphenAndLower)`: every capital becomes a
hyphen followed by its lowercase form. -/
def hyphenateChars : List Char → List Char
  | [] => []
  | c :: cs =>
    (if capitalMatcher c then ['-', c.toLower] else [c]) ++ hyphenateChars cs

/-- `hyphenate(name)`: lowercase the first character, then hyphen-lower every
capital.  (The source memoizes this pure function in `hyphenateCache`;
memoization of a pure function is dropped.) -/
def hyphenate (name : String) : String :=
  match name.data with
  | [] => ""
  | c :: cs => String.mk (hyphenateChars (c.toLower :: cs))

/-- Context token for observer-originated dispatch (`styleObserverContext`
in the source: the string `StyleObserver:context`). -/
def styleObserverContext : String := "StyleObserver:context"

/-- Modelled from the spec: the opaque context token under which the host
binding engine's dependency tracker dispatches source changes
(`sourceContext` imported from `aurelia-binding`; its concrete string only
matters for being distinct from `styleObserverContext`). -/
def sourceContext : String := "Binding:source"

/-- Externally observable interactions recorded by each operation. -/
inductive Eff where
  /-- `element.style.setProperty(rule, v)` was invoked. -/
  | setProp (rule : String) (v : JSVal)
  /-- a subscriber `(ctx, callable)` was called with `(newValue, oldValue)`. -/
  | notifySub (ctx : String) (callable : Nat) (newValue oldValue : JSVal)
  /-- `sourceExpression.evaluate` was invoked by binding `bid`, returning `v`. -/
  | evalExpr (bid : Nat) (v : JSVal)
  /-- `sourceExpression.assign(source, v)` was invoked by binding `bid`. -/
  | assignExpr (bid : Nat) (v : JSVal)
  /-- the optional `sourceExpression.bind` hook was invoked. -/
  | exprBind (bid : Nat)
  /-- the optional `sourceExpression.unbind` hook was invoked. -/
  | exprUnbind (bid : Nat)
  /-- `sourceExpression.connect(binding, source)` was invoked. -/
  | exprConnect (bid : Nat)
  /-- `enqueueBindingConnect(binding)` was invoked. -/
  | enqueueConnect (bid : Nat)
  /-- a mutation observer was created and attached for observer `oid`. -/
  | moObserve (oid : Nat)
  /-- the mutation observer of observer `oid` was disconnected. -/
  | moDisconnect (oid : Nat)
  /-- the connectable mixin's `unobserve(all)` was invoked by binding `bid`. -/
  | unobserveDeps (bid : Nat) (all : Bool)
deriving DecidableEq, Repr

/-- One `InlineStyleObserver` instance: cached `value` and `prevValue` start
as JS `undefined` (the constructor never assigns them), `subs` is the
subscriber collection's (context, callable) pairs, `mo` records whether the
external-mutation watch handle is present. -/
structure InlineStyleObserver where
  cssRule : String
  hyphenatedCssRule : String
  value : JSVal := .undef
  prevValue : JSVal := .undef
  subs : List (String × Nat) := []
  mo : Bool := false
deriving DecidableEq, Repr

/-- `new InlineStyleObserver(element, cssRule)` (the element is the world's
single element). -/
def InlineStyleObserver.create (cssRule : String) : InlineStyleObserver :=
  { cssRule := cssRule, hyphenatedCssRule := hyphenate cssRule }

/-- Binding modes of `aurelia-binding`'s `bindingMode` used by the plugin. -/
inductive BindingMode where
  | oneTime
  | toView
  | twoWay
  | fromView
deriving DecidableEq, Repr

/-- One `StyleBinding` instance.  `source` and `styleObserver` are heap ids
(`none` models JS `null`/`undefined`); `version` is the connectable mixin's
`_version` counter; `exprHasBind`/`exprHasUnbind` record whether the opaque
source expression carries the optional `bind`/`unbind` hooks. -/
structure StyleBinding where
  targetProperty : String
  mode : BindingMode
  isBound : Bool := false
  source : Option Nat := none
  styleObserver : Option Nat := none
  version : Nat := 0
  exprHasBind : Bool := false
  exprHasUnbind : Bool := false
deriving DecidableEq, Repr

/-- The whole mutable state: the single target element (style surface and
`style`-attribute presence), the observer heap with the per-element cache
keyed by hyphenated rule, the binding heap, and the binding-source cells. -/
structure World where
  style : Style
  hasStyleAttr : Bool
  obsHeap : List InlineStyleObserver
  obsCache : List (String × Nat)
  bindings : List StyleBinding
  sources : List JSVal
deriving DecidableEq, Repr

/-- Modelled from the spec: `callSubscribers(newValue, oldValue)` of the
host's subscriber-collection capability calls every registered
(context, callable) pair in order with those two arguments. -/
def callSubscribers (subs : List (String × Nat)) (newValue oldValue : JSVal) :
    List Eff :=
  subs.map (fun p => Eff.notifySub p.1 p.2 newValue oldValue)

/-- `notify()`: reads `prevValue` and `value` after the update and fans out. -/
def InlineStyleObserver.notifyEffs (o : InlineStyleObserver) : List Eff :=
  callSubscribers o.subs o.value o.prevValue

/-- `getValue()`: authoritative read-through of the style surface. -/
def InlineStyleObserver.getValue (w : World) (oid : Nat) : JSVal :=
  match w.obsHeap[oid]? with
  | some o => .str (Style.getPropertyValue w.style o.hyphenatedCssRule)
  | none => (.undef)

/-- `setValue(newValue)`: on strict inequality with the cached `value`,
shift `value` into `prevValue`, store `newValue`, write it through
`setProperty`, and notify; otherwise do nothing. -/
def InlineStyleObserver.setValue (w : World) (oid : Nat) (newValue : JSVal) :
    World × List Eff :=
  match w.obsHeap[oid]? with
  | none => (w, [])
  | some o =>
    if newValue = o.value then (w, [])
    else
      let o' := { o with prevValue := o.value, value := newValue }
      ({ w with
          obsHeap := w.obsHeap.set oid o',
          style := Style.setProperty w.style o.hyphenatedCssRule newValue,
          hasStyleAttr := true },
        Eff.setProp o.hyphenatedCssRule newValue :: o'.notifyEffs)

/-- `syncValue()`: re-read the style surface; on strict inequality with the
cached `value`, shift and notify (no style write); otherwise do nothing. -/
def InlineStyleObserver.syncValue (w : World) (oid : Nat) : World × List Eff :=
  match w.obsHeap[oid]? with
  | none => (w, [])
  | some o =>
    let prev := o.value
    let value := JSVal.str (Style.getPropertyValue w.style o.hyphenatedCssRule)
    if value = prev then (w, [])
    else
      let o' := { o with prevValue := prev, value := value }
      ({ w with obsHeap := w.obsHeap.set oid o' }, o'.notifyEffs)

/-- `subscribe(context, callable)`: when there is no subscriber yet, start
the external-mutation watch (`observeMutation`, itself guarded by the
handle's absence), then add the pair.  Modelled from the spec: the host's
`addSubscriber` adds the pair only when not already present. -/
def InlineStyleObserver.subscribe (w : World) (oid : Nat) (ctx : String)
    (c : Nat) : World × List Eff :=
  match w.obsHeap[oid]? with
  | none => (w, [])
  | some o =>
    let watch : InlineStyleObserver × List Eff :=
      if o.subs.isEmpty then
        if o.mo then (o, []) else ({ o with mo := true }, [Eff.moObserve oid])
      else (o, [])
    let o' := { watch.1 with
      subs := if (ctx, c) ∈ watch.1.subs then watch.1.subs
              else watch.1.subs ++ [(ctx, c)] }
    ({ w with obsHeap := w.obsHeap.set oid o' }, watch.2)

/-- `unsubscribe(context, callable)`: remove the pair; only when the removal
succeeded and no subscriber remains, stop the watch (`unobserveMutation`,
itself guarded by the handle's presence).  Modelled from the spec: the
host's `removeSubscriber` reports whether the pair was present and removed. -/
def InlineStyleObserver.unsubscribe (w : World) (oid : Nat) (ctx : String)
    (c : Nat) : World × List Eff :=
  match w.obsHeap[oid]? with
  | none => (w, [])
  | some o =>
    if (ctx, c) ∈ o.subs then
      let subs' := o.subs.erase (ctx, c)
      if subs'.isEmpty then
        if o.mo then
          ({ w with obsHeap := w.obsHeap.set oid { o with subs := subs', mo := false } },
            [Eff.moDisconnect oid])
        else
          ({ w with obsHeap := w.obsHeap.set oid { o with subs := subs' } }, [])
      else
        ({ w with obsHeap := w.obsHeap.set oid { o with subs := subs' } }, [])
    else (w, [])

/-- Modelled from the spec: the opaque source-expression capability,
instantiated as direct access to the binding's source cell —
`evaluate(source, lookupFunctions)` reads the cell. -/
def evalSourceExpr (w : World) (src : Nat) : JSVal :=
  (w.sources[src]?).getD (.undef)

/-- Modelled from the spec: `assign(source, value, lookupFunctions)` writes
the binding's source cell. -/
def assignSourceExpr (w : World) (src : Nat) (v : JSVal) : World :=
  { w with sources := w.sources.set src v }

/-- `updateTarget(value)`: `this.styleObserver.setValue(value)`. -/
def StyleBinding.updateTarget (w : World) (oid : Nat) (value : JSVal) :
    World × List Eff :=
  InlineStyleObserver.setValue w oid value

/-- `updateSource(value)`: `this.sourceExpression.assign(this.source, value)`. -/
def StyleBinding.updateSource (w : World) (bid src : Nat) (value : JSVal) :
    World × List Eff :=
  (assignSourceExpr w src value, [Eff.assignExpr bid value])

/-- The index loop of `findRuleValue`: scan `style[0..style.length)`,
comparing each enumerated property name against `prop`; on the first match
return `style.getPropertyValue(prop)` of the whole declaration. -/
def findRuleValueAux (style : Style) (prop : String) :
    List (String × String) → Option String
  | [] => none
  | e :: rest =>
    if e.1 = prop then some (Style.getPropertyValue style prop)
    else findRuleValueAux style prop rest

/-- `findRuleValue(style, prop)`: `null` (here `none`) unless `prop` occurs
among the enumerated rules, in which case its live value. -/
def StyleBinding.findRuleValue (style : Style) (prop : String) : Option String :=
  findRuleValueAux style prop style

/-- The observer-cache step of `bind`: read `target.__style_observer__`
(creating it if absent), look up the hyphenated rule, and either reuse the
cached observer or create and cache a fresh one. -/
def lookupOrCreateObserver (w : World) (targetProperty : String) : World × Nat :=
  let targetCssRule := hyphenate targetProperty
  match List.lookup targetCssRule w.obsCache with
  | some oid => (w, oid)
  | none =>
    let oid := w.obsHeap.length
    ({ w with
        obsHeap := w.obsHeap ++ [InlineStyleObserver.create targetProperty],
        obsCache := w.obsCache ++ [(targetCssRule, oid)] }, oid)

/-- The mode-dependent tail of `bind`: initial reconciliation (from-view
reads the style attribute when present and assigns a found rule value to the
source; every other mode evaluates the expression and writes the observer),
then ongoing registration (one-time: nothing; to-view:
`enqueueBindingConnect`; two-way: `connect` plus observer subscription;
from-view: observer subscription). -/
def bindModeInit (w : World) (bid oid src : Nat) (mode : BindingMode)
    (targetCssRule : String) : World × List Eff :=
  let initStep : World × List Eff :=
    if mode = .fromView then
      if w.hasStyleAttr then
        match StyleBinding.findRuleValue w.style targetCssRule with
        | some ruleValue => StyleBinding.updateSource w bid src (.str ruleValue)
        | none => (w, [])
      else (w, [])
    else
      let value := evalSourceExpr w src
      let r := StyleBinding.updateTarget w oid value
      (r.1, Eff.evalExpr bid value :: r.2)
  if mode = .oneTime then initStep
  else if mode = .toView then (initStep.1, initStep.2 ++ [Eff.enqueueConnect bid])
  else if mode = .twoWay then
    let r := InlineStyleObserver.subscribe initStep.1 oid styleObserverContext bid
    (r.1, initStep.2 ++ [Eff.exprConnect bid] ++ r.2)
  else
    let r := InlineStyleObserver.subscribe initStep.1 oid styleObserverContext bid
    (r.1, initStep.2 ++ r.2)

/-- The body of `bind(source)` past the already-bound check: set `isBound`
and `source`, run the optional expression `bind` hook, resolve or create the
observer, then apply `bindModeInit`. -/
def StyleBinding.bindCore (w : World) (bid : Nat) (b : StyleBinding)
    (src : Nat) : World × List Eff :=
  let bindEff := if b.exprHasBind then [Eff.exprBind bid] else []
  let r1 := lookupOrCreateObserver w b.targetProperty
  let oid := r1.2
  let b' := { b with isBound := true, source := some src, styleObserver := some oid }
  let w2 := { r1.1 with bindings := r1.1.bindings.set bid b' }
  let r2 := bindModeInit w2 bid oid src b.mode (hyphenate b.targetProperty)
  (r2.1, bindEff ++ r2.2)

/-- `unbind()`: no-op when unbound; otherwise clear `isBound`, run the
optional expression `unbind` hook, clear `source`, unsubscribe from the
observer, clear the observer reference, and release dependency watches. -/
def StyleBinding.unbind (w : World) (bid : Nat) : World × List Eff :=
  match w.bindings[bid]? with
  | none => (w, [])
  | some b =>
    if b.isBound = false then (w, [])
    else
      let unbindEff := if b.exprHasUnbind then [Eff.exprUnbind bid] else []
      let b' := { b with isBound := false, source := none, styleObserver := none }
      let w1 := { w with bindings := w.bindings.set bid b' }
      let r := match b.styleObserver with
        | some oid => InlineStyleObserver.unsubscribe w1 oid styleObserverContext bid
        | none => (w1, [])
      (r.1, unbindEff ++ r.2 ++ [Eff.unobserveDeps bid true])

/-- `bind(source)`: when already bound to the same source (reference
equality on the source cell id) return immediately; when bound to a
different source, unbind first; then run the bind body. -/
def StyleBinding.bind (w : World) (bid : Nat) (src : Nat) : World × List Eff :=
  match w.bindings[bid]? with
  | none => (w, [])
  | some b =>
    if b.isBound then
      if b.source = some src then (w, [])
      else
        let r := StyleBinding.unbind w bid
        match r.1.bindings[bid]? with
        | some b2 =>
          let r2 := StyleBinding.bindCore r.1 bid b2 src
          (r2.1, r.2 ++ r2.2)
        | none => r
    else StyleBinding.bindCore w bid b src

/-- `call(context, newValue, oldValue)`: no-op when unbound; under the
source context, re-read the observer's live value and re-evaluate the
expression, write the observer only on strict inequality, and (unless
one-time) bump `_version`, re-`connect`, and drop stale dependency watches;
under the observer context, assign to the source only on strict inequality;
any other context throws. -/
def StyleBinding.call (w : World) (bid : Nat) (context : String)
    (newValue oldValue : JSVal) : Except String (World × List Eff) :=
  match w.bindings[bid]? with
  | none => .ok (w, [])
  | some b =>
    if b.isBound = false then .ok (w, [])
    else if context = sourceContext then
      match b.styleObserver, b.source with
      | some oid, some src =>
        let oldValue := InlineStyleObserver.getValue w oid
        let newValue := evalSourceExpr w src
        let r : World × List Eff :=
          if newValue = oldValue then (w, [])
          else StyleBinding.updateTarget w oid newValue
        if b.mode = .oneTime then .ok (r.1, Eff.evalExpr bid newValue :: r.2)
        else
          let b' := { b with version := b.version + 1 }
          .ok ({ r.1 with bindings := r.1.bindings.set bid b' },
            Eff.evalExpr bid newValue :: r.2 ++
              [Eff.exprConnect bid, Eff.unobserveDeps bid false])
      | _, _ => .ok (w, [])
    else if context = styleObserverContext then
      if newValue = oldValue then .ok (w, [])
      else
        match b.source with
        | some src => .ok (StyleBinding.updateSource w bid src newValue)
        | none => .ok (w, [])
    else .error ("Unexpected context for style binding: \"" ++ context ++ "\"")

/-- `connect(evaluate)`: no-op when unbound; re-evaluate and push to the
observer when `evaluate` is set, then re-register the expression with the
dependency tracker. -/
def StyleBinding.connect (w : World) (bid : Nat) (evaluate : Bool) :
    World × List Eff :=
  match w.bindings[bid]? with
  | none => (w, [])
  | some b =>
    if b.isBound = false then (w, [])
    else
      let r : World × List Eff :=
        if evaluate then
          match b.styleObserver, b.source with
          | some oid, some src =>
            let value := evalSourceExpr w src
            let s := StyleBinding.updateTarget w oid value
            (s.1, Eff.evalExpr bid value :: s.2)
          | _, _ => (w, [])
        else (w, [])
      (r.1, r.2 ++ [Eff.exprConnect bid])

/-- A direct external mutation of the element's `style` attribute (the path
the mutation observer watches, outside any observer method). -/
def extSetStyle (w : World) (rule s : String) : World :=
  { w with style := Style.setPropRaw w.style rule s, hasStyleAttr := true }

/-- Discriminator: is this effect a style-surface write? -/
def Eff.isSetProp : Eff → Bool
  | .setProp _ _ => true
  | _ => false

/-- Discriminator: is this effect a subscriber notification? -/
def Eff.isNotifySub : Eff → Bool
  | .notifySub _ _ _ _ => true
  | _ => false

/-- Discriminator: is this effect a source-expression evaluation? -/
def Eff.isEvalExpr : Eff → Bool
  | .evalExpr _ _ => true
  | _ => false

/-- Discriminator: is this effect a source-expression assignment? -/
def Eff.isAssignExpr : Eff → Bool
  | .assignExpr _ _ => true
  | _ => false

/-- A sample observer on `color` with cached value `"blue"` and two
subscribers, used to instantiate the general theorems. -/
def sampleObs : InlineStyleObserver :=
  { cssRule := "color", hyphenatedCssRule := "color",
    value := .str "blue", prevValue := .undef,
    subs := [(styleObserverContext, 0), (styleObserverContext, 1)], mo := true }

/-- A sample world holding `sampleObs` over the inline style `color: red`. -/
def sampleObsWorld : World :=
  { style := [("color", "red")], hasStyleAttr := true,
    obsHeap := [sampleObs], obsCache := [("color", 0)],
    bindings := [], sources := [] }

/-- Characterization of `setValue`: no-op on strict equality with the
cached value; otherwise shift, store, write-through and notify. -/
theorem setValue_char (w : World) (oid : Nat)
    (o : InlineStyleObserver) (nv : JSVal) (h : w.obsHeap[oid]? = some o) :
    (nv = o.value → InlineStyleObserver.setValue w oid nv = (w, [])) ∧
    (nv ≠ o.value →
      InlineStyleObserver.setValue w oid nv =
        ({ w with
            obsHeap := w.obsHeap.set oid
              { o with prevValue := o.value, value := nv },
            style := Style.setProperty w.style o.hyphenatedCssRule nv,
            hasStyleAttr := true },
          Eff.setProp o.hyphenatedCssRule nv ::
            callSubscribers o.subs nv o.value)) := by
  constructor
  · intro he
    simp [InlineStyleObserver.setValue, h, he]
  · intro hne
    simp [InlineStyleObserver.setValue, h, hne,
      InlineStyleObserver.notifyEffs]

/-- Characterization of `syncValue`: no-op when the live value equals the
cached one; otherwise shift, store and notify without any style write. -/
theorem syncValue_char (w : World) (oid : Nat)
    (o : InlineStyleObserver) (h : w.obsHeap[oid]? = some o) :
    (JSVal.str (Style.getPropertyValue w.style o.hyphenatedCssRule) = o.value →
      InlineStyleObserver.syncValue w oid = (w, [])) ∧
    (JSVal.str (Style.getPropertyValue w.style o.hyphenatedCssRule) ≠ o.value →
      InlineStyleObserver.syncValue w oid =
        ({ w with
            obsHeap := w.obsHeap.set oid
              { o with prevValue := o.value,
                       value := .str (Style.getPropertyValue w.style
                         o.hyphenatedCssRule) } },
          callSubscribers o.subs
            (.str (Style.getPropertyValue w.style o.hyphenatedCssRule))
            o.value)) := by
  constructor
  · intro he
    simp [InlineStyleObserver.syncValue, h, he]
  · intro hne
    simp [InlineStyleObserver.syncValue, h, hne,
      InlineStyleObserver.notifyEffs]

/-- C1: `setValue(newValue)` with `newValue` strictly equal to the cached
value is a complete no-op (state, style surface and subscribers untouched);
with `newValue` strictly unequal, it shifts the cached value into
`prevValue`, stores `newValue`, writes it to the style surface, and calls
every subscriber with `(newValue, old cached value)`. -/
theorem setValue_dedup_and_update (w : World) (oid : Nat)
    (o : InlineStyleObserver) (nv : JSVal) (h : w.obsHeap[oid]? = some o) :
    (nv = o.value → InlineStyleObserver.setValue w oid nv = (w, [])) ∧
    (nv ≠ o.value →
      InlineStyleObserver.setValue w oid nv =
        ({ w with
            obsHeap := w.obsHeap.set oid
              { o with prevValue := o.value, value := nv },
            style := Style.setProperty w.style o.hyphenatedCssRule nv,
            hasStyleAttr := true },
          Eff.setProp o.hyphenatedCssRule nv ::
            callSubscribers o.subs nv o.value)) :=
  setValue_char w oid o nv h

/-- C1 witness: instantiation of `setValue_dedup_and_update` on
`sampleObsWorld`. -/
theorem setValue_dedup_and_update_witness :
    sampleObsWorld.obsHeap[0]? = some sampleObs ∧
    (((JSVal.str "blue") = sampleObs.value →
      InlineStyleObserver.setValue sampleObsWorld 0 (.str "blue") =
        (sampleObsWorld, [])) ∧
    ((JSVal.str "green") ≠ sampleObs.value →
      InlineStyleObserver.setValue sampleObsWorld 0 (.str "green") =
        ({ sampleObsWorld with
            obsHeap := sampleObsWorld.obsHeap.set 0
              { sampleObs with prevValue := sampleObs.value,
                               value := .str "green" },
            style := Style.setProperty sampleObsWorld.style
              sampleObs.hyphenatedCssRule (.str "green"),
            hasStyleAttr := true },
          Eff.setProp sampleObs.hyphenatedCssRule (.str "green") ::
            callSubscribers sampleObs.subs (.str "green") sampleObs.value))) :=
  ⟨rfl,
    ⟨(setValue_dedup_and_update sampleObsWorld 0 sampleObs (.str "blue") rfl).1,
     (setValue_dedup_and_update sampleObsWorld 0 sampleObs (.str "green") rfl).2⟩⟩

/-- C6 counterexample: at `sampleObsWorld` (cached value `"blue"`, live
style `color: red`), `syncValue` shifts, stores and notifies — yet its
trace contains no style-surface write and it leaves the style surface
untouched, whereas `setValue` of the same fresh value does emit the write
the claim attributes to `syncValue`. -/
theorem syncValue_no_style_write_cex :
    (InlineStyleObserver.syncValue sampleObsWorld 0).1.style =
      sampleObsWorld.style ∧
    (InlineStyleObserver.syncValue sampleObsWorld 0).2.all
      (fun e => ! e.isSetProp) = true ∧
    (InlineStyleObserver.syncValue sampleObsWorld 0).2.any
      Eff.isNotifySub = true ∧
    (InlineStyleObserver.setValue sampleObsWorld 0 (.str "red")).2.any
      Eff.isSetProp = true := by
  decide

/-- C6 (amended): `syncValue()` re-reads the live value from the style
surface; when it strictly differs from the cached value it shifts the
cached value into `prevValue`, stores the fresh value, and notifies all
subscribers with the same `(newValue, old cached value)` arguments as
`setValue` — but it performs no write to the style surface; when the fresh
value equals the cached value it does nothing. -/
theorem syncValue_shift_notify_no_write (w : World) (oid : Nat)
    (o : InlineStyleObserver) (h : w.obsHeap[oid]? = some o) :
    (JSVal.str (Style.getPropertyValue w.style o.hyphenatedCssRule) = o.value →
      InlineStyleObserver.syncValue w oid = (w, [])) ∧
    (JSVal.str (Style.getPropertyValue w.style o.hyphenatedCssRule) ≠ o.value →
      InlineStyleObserver.syncValue w oid =
        ({ w with
            obsHeap := w.obsHeap.set oid
              { o with prevValue := o.value,
                       value := .str (Style.getPropertyValue w.style
                         o.hyphenatedCssRule) } },
          callSubscribers o.subs
            (.str (Style.getPropertyValue w.style o.hyphenatedCssRule))
            o.value)) :=
  syncValue_char w oid o h

/-- C6 witness: instantiation of `syncValue_shift_notify_no_write` on
`sampleObsWorld`. -/
theorem syncValue_shift_notify_no_write_witness :
    sampleObsWorld.obsHeap[0]? = some sampleObs ∧
    ((JSVal.str (Style.getPropertyValue sampleObsWorld.style
        sampleObs.hyphenatedCssRule) = sampleObs.value →
      InlineStyleObserver.syncValue sampleObsWorld 0 = (sampleObsWorld, [])) ∧
    (JSVal.str (Style.getPropertyValue sampleObsWorld.style
        sampleObs.hyphenatedCssRule) ≠ sampleObs.value →
      InlineStyleObserver.syncValue sampleObsWorld 0 =
        ({ sampleObsWorld with
            obsHeap := sampleObsWorld.obsHeap.set 0
              { sampleObs with
                  prevValue := sampleObs.value,
                  value := .str (Style.getPropertyValue
                    sampleObsWorld.style
                    sampleObs.hyphenatedCssRule) } },
          callSubscribers sampleObs.subs
            (.str (Style.getPropertyValue sampleObsWorld.style
              sampleObs.hyphenatedCssRule))
            sampleObs.value))) :=
  ⟨rfl, syncValue_shift_notify_no_write sampleObsWorld 0 sampleObs rfl⟩

/-- C9: `unsubscribe(context, callable)` for a pair not currently in the
subscriber set leaves the whole world unchanged (in particular the
subscriber set and the watch handle) and performs no external interaction:
teardown is gated on the removal having succeeded. -/
theorem unsubscribe_absent_pair_noop (w : World) (oid : Nat)
    (o : InlineStyleObserver) (ctx : String) (c : Nat)
    (h : w.obsHeap[oid]? = some o) (hn : (ctx, c) ∉ o.subs) :
    InlineStyleObserver.unsubscribe w oid ctx c = (w, []) := by
  simp [InlineStyleObserver.unsubscribe, h, hn]

/-- C9 witness: unsubscribing a never-subscribed pair on `sampleObsWorld`. -/
theorem unsubscribe_absent_pair_noop_witness :
    sampleObsWorld.obsHeap[0]? = some sampleObs ∧
    (styleObserverContext, 7) ∉ sampleObs.subs ∧
    InlineStyleObserver.unsubscribe sampleObsWorld 0 styleObserverContext 7 =
      (sampleObsWorld, []) :=
  ⟨rfl, by decide,
    unsubscribe_absent_pair_noop sampleObsWorld 0 sampleObs
      styleObserverContext 7 rfl (by decide)⟩

/-- C7: `bind(source)` on a binding already bound to the same source object
returns immediately: the world is unchanged (no duplicate subscription, no
observer creation) and no external interaction happens (no expression
bind/evaluate/assign). -/
theorem bind_same_source_idempotent (w : World) (bid src : Nat)
    (b : StyleBinding) (h : w.bindings[bid]? = some b)
    (hb : b.isBound = true) (hs : b.source = some src) :
    StyleBinding.bind w bid src = (w, []) := by
  simp [StyleBinding.bind, h, hb, hs]

/-- A sample bound two-way binding (the state `bind` leaves behind). -/
def sampleBoundBinding : StyleBinding :=
  { targetProperty := "color", mode := .twoWay, isBound := true,
    source := some 0, styleObserver := some 0 }

/-- A sample observer matching `sampleBoundBinding`'s subscription. -/
def sampleBoundObs : InlineStyleObserver :=
  { cssRule := "color", hyphenatedCssRule := "color",
    value := .str "blue", prevValue := .undef,
    subs := [(styleObserverContext, 0)], mo := true }

/-- A sample world in which `sampleBoundBinding` is bound over source cell 0. -/
def sampleBoundWorld : World :=
  { style := [("color", "blue")], hasStyleAttr := true,
    obsHeap := [sampleBoundObs], obsCache := [("color", 0)],
    bindings := [sampleBoundBinding],
    sources := [JSVal.str "blue"] }

/-- C7 witness: re-binding `sampleBoundWorld`'s binding to its own source. -/
theorem bind_same_source_idempotent_witness :
    sampleBoundWorld.bindings[0]? = some sampleBoundBinding ∧
    sampleBoundBinding.isBound = true ∧
    sampleBoundBinding.source = some 0 ∧
    StyleBinding.bind sampleBoundWorld 0 0 = (sampleBoundWorld, []) :=
  ⟨rfl, rfl, rfl,
    bind_same_source_idempotent sampleBoundWorld 0 0 sampleBoundBinding
      rfl rfl rfl⟩

/-- Under a recognized context, a bound binding's `call` never throws. -/
theorem call_ok_of_valid_context (w : World) (bid : Nat) (b : StyleBinding)
    (context : String) (nv ov : JSVal) (h : w.bindings[bid]? = some b)
    (hbound : b.isBound = true)
    (hval : context = sourceContext ∨ context = styleObserverContext) :
    ∃ r, StyleBinding.call w bid context nv ov = Except.ok r := by
  have hd : ¬ (styleObserverContext = sourceContext) := by decide
  rcases hval with hc | hc <;> subst hc <;>
    simp only [StyleBinding.call, h, hbound, hd, Bool.true_eq_false, if_false,
      reduceIte]
  · rcases hso : b.styleObserver with _ | oid <;>
      rcases hsr : b.source with _ | src <;> simp only [hso, hsr]
    · exact ⟨_, rfl⟩
    · exact ⟨_, rfl⟩
    · exact ⟨_, rfl⟩
    · split
      · exact ⟨_, rfl⟩
      · exact ⟨_, rfl⟩
  · split
    · exact ⟨_, rfl⟩
    · rcases hsr : b.source with _ | src <;> simp only [hsr]
      · exact ⟨_, rfl⟩
      · exact ⟨_, rfl⟩

/-- C8: `call(context, newValue, oldValue)` returns the world unchanged with
no external interaction whenever the binding is unbound (for every context
value); when bound it raises an error exactly when the context is neither
the source context nor the style-observer context, and every raised message
embeds the offending context value. -/
theorem call_unexpected_context (w : World) (bid : Nat) (b : StyleBinding)
    (context : String) (nv ov : JSVal) (h : w.bindings[bid]? = some b) :
    (b.isBound = false →
      StyleBinding.call w bid context nv ov = Except.ok (w, [])) ∧
    (b.isBound = true →
      ((∃ msg, StyleBinding.call w bid context nv ov = Except.error msg) ↔
        (context ≠ sourceContext ∧ context ≠ styleObserverContext))) ∧
    (∀ msg, StyleBinding.call w bid context nv ov = Except.error msg →
      ∃ pre post, msg = pre ++ context ++ post) := by
  refine ⟨fun hub => by simp [StyleBinding.call, h, hub], ?_, ?_⟩
  · intro hbound
    constructor
    · rintro ⟨msg, hmsg⟩
      by_cases hc1 : context = sourceContext
      · rcases call_ok_of_valid_context w bid b context nv ov h hbound
          (Or.inl hc1) with ⟨r, hr⟩
        rw [hr] at hmsg
        cases hmsg
      · by_cases hc2 : context = styleObserverContext
        · rcases call_ok_of_valid_context w bid b context nv ov h hbound
            (Or.inr hc2) with ⟨r, hr⟩
          rw [hr] at hmsg
          cases hmsg
        · exact ⟨hc1, hc2⟩
    · rintro ⟨hc1, hc2⟩
      exact ⟨"Unexpected context for style binding: \"" ++ context ++ "\"",
        by simp [StyleBinding.call, h, hbound, hc1, hc2]⟩
  · intro msg hmsg
    by_cases hub : b.isBound = false
    · simp [StyleBinding.call, h, hub] at hmsg
    · have hbound : b.isBound = true := by
        cases hb : b.isBound
        · exact absurd hb hub
        · rfl
      by_cases hc1 : context = sourceContext
      · rcases call_ok_of_valid_context w bid b context nv ov h hbound
          (Or.inl hc1) with ⟨r, hr⟩
        rw [hr] at hmsg
        cases hmsg
      · by_cases hc2 : context = styleObserverContext
        · rcases call_ok_of_valid_context w bid b context nv ov h hbound
            (Or.inr hc2) with ⟨r, hr⟩
          rw [hr] at hmsg
          cases hmsg
        · simp [StyleBinding.call, h, hbound, hc1, hc2] at hmsg
          exact ⟨"Unexpected context for style binding: \"", "\"",
            by rw [← hmsg]⟩

/-- C8 witness: the unexpected context `"bogus"` on `sampleBoundWorld`. -/
theorem call_unexpected_context_witness :
    sampleBoundWorld.bindings[0]? = some sampleBoundBinding ∧
    ((sampleBoundBinding.isBound = false →
      StyleBinding.call sampleBoundWorld 0 "bogus" .undef .undef =
        Except.ok (sampleBoundWorld, [])) ∧
    (sampleBoundBinding.isBound = true →
      ((∃ msg, StyleBinding.call sampleBoundWorld 0 "bogus" .undef .undef =
          Except.error msg) ↔
        ("bogus" ≠ sourceContext ∧ "bogus" ≠ styleObserverContext))) ∧
    (∀ msg, StyleBinding.call sampleBoundWorld 0 "bogus" .undef .undef =
        Except.error msg →
      ∃ pre post, msg = pre ++ "bogus" ++ post)) :=
  ⟨rfl, call_unexpected_context sampleBoundWorld 0 sampleBoundBinding
    "bogus" .undef .undef rfl⟩

/-- Erasing a present pair can only empty a singleton subscriber list. -/
theorem erase_eq_nil_of_mem {l : List (String × Nat)} {a : String × Nat}
    (hm : a ∈ l) (he : l.erase a = []) : l = [a] := by
  cases l with
  | nil => cases hm
  | cons x xs =>
    rw [List.erase_cons] at he
    by_cases hx : x = a
    · subst hx
      simp only [beq_self_eq_true, if_true] at he
      subst he
      rfl
    · have hb : (x == a) = false := by simp [hx]
      rw [hb] at he
      simp at he

/-- C4: under the invariant that the watch handle is present iff there is
at least one subscriber, `subscribe` and `unsubscribe` preserve the
invariant; `subscribe` creates the watch exactly when the subscriber count
transitions 0 to 1 (its trace is `moObserve` iff the set was empty, and the
set is nonempty afterwards), and `unsubscribe` disconnects and clears the
handle exactly when the count transitions 1 to 0 (its trace is
`moDisconnect` iff the set was exactly the removed pair). -/
theorem watch_iff_subscribers (w : World) (oid : Nat)
    (o : InlineStyleObserver) (ctx : String) (c : Nat)
    (h : w.obsHeap[oid]? = some o) (hinv : o.mo = !o.subs.isEmpty) :
    (∃ o₁, (InlineStyleObserver.subscribe w oid ctx c).1.obsHeap[oid]? = some o₁ ∧
      o₁.mo = !o₁.subs.isEmpty ∧ o₁.subs.isEmpty = false) ∧
    (InlineStyleObserver.subscribe w oid ctx c).2 =
      (if o.subs.isEmpty then [Eff.moObserve oid] else []) ∧
    (∃ o₂, (InlineStyleObserver.unsubscribe w oid ctx c).1.obsHeap[oid]? = some o₂ ∧
      o₂.mo = !o₂.subs.isEmpty) ∧
    (InlineStyleObserver.unsubscribe w oid ctx c).2 =
      (if o.subs = [(ctx, c)] then [Eff.moDisconnect oid] else []) := by
  have hlt : oid < w.obsHeap.length := by
    by_contra hge
    push_neg at hge
    rw [List.getElem?_eq_none hge] at h
    cases h
  have hset : ∀ (o' : InlineStyleObserver),
      (w.obsHeap.set oid o')[oid]? = some o' :=
    fun o' => List.getElem?_set_eq_of_lt o' hlt
  by_cases hemp : o.subs.isEmpty
  · have hsubs : o.subs = [] := by
      cases hs : o.subs
      · rfl
      · rw [hs] at hemp; simp at hemp
    have hmo : o.mo = false := by rw [hinv, hemp]; rfl
    refine ⟨?_, ?_, ?_, ?_⟩
    · have hres : (InlineStyleObserver.subscribe w oid ctx c).1.obsHeap[oid]? =
          some { o with mo := true, subs := [(ctx, c)] } := by
        simp [InlineStyleObserver.subscribe, h, hemp, hmo, hsubs, hset]
      exact ⟨_, hres, rfl, rfl⟩
    · simp [InlineStyleObserver.subscribe, h, hemp, hmo]
    · refine ⟨o, ?_, hinv⟩
      simp [InlineStyleObserver.unsubscribe, h, hsubs]
    · have hone : ¬ (o.subs = [(ctx, c)]) := by simp [hsubs]
      simp [InlineStyleObserver.unsubscribe, h, hsubs, hone]
  · have hempf : o.subs.isEmpty = false := by
      cases hs : o.subs.isEmpty
      · rfl
      · exact absurd hs hemp
    have hmo : o.mo = true := by rw [hinv, hempf]; rfl
    refine ⟨?_, ?_, ?_, ?_⟩
    · by_cases hmem : (ctx, c) ∈ o.subs
      · have hres : (InlineStyleObserver.subscribe w oid ctx c).1.obsHeap[oid]? =
            some o := by
          simp [InlineStyleObserver.subscribe, h, hempf, hmem, hset]
        exact ⟨o, hres, hinv, hempf⟩
      · have hres : (InlineStyleObserver.subscribe w oid ctx c).1.obsHeap[oid]? =
            some { o with subs := o.subs ++ [(ctx, c)] } := by
          simp [InlineStyleObserver.subscribe, h, hempf, hmem, hset]
        refine ⟨_, hres, ?_, ?_⟩
        · simp [hmo]
        · simp
    · simp [InlineStyleObserver.subscribe, h, hempf]
    · by_cases hmem : (ctx, c) ∈ o.subs
      · by_cases herase : o.subs.erase (ctx, c) = []
        · have hres : (InlineStyleObserver.unsubscribe w oid ctx c).1.obsHeap[oid]? =
              some { o with subs := [], mo := false } := by
            simp [InlineStyleObserver.unsubscribe, h, hmem, herase, hmo, hset]
          exact ⟨_, hres, rfl⟩
        · have hie : (o.subs.erase (ctx, c)).isEmpty = false := by
            cases hs : o.subs.erase (ctx, c)
            · exact absurd hs herase
            · simp
          have hres : (InlineStyleObserver.unsubscribe w oid ctx c).1.obsHeap[oid]? =
              some { o with subs := o.subs.erase (ctx, c) } := by
            simp [InlineStyleObserver.unsubscribe, h, hmem, hie, hset]
          refine ⟨_, hres, ?_⟩
          simp [hmo, hie]
      · exact ⟨o, by simp [InlineStyleObserver.unsubscribe, h, hmem], hinv⟩
    · by_cases hmem : (ctx, c) ∈ o.subs
      · by_cases herase : o.subs.erase (ctx, c) = []
        · have hone : o.subs = [(ctx, c)] := erase_eq_nil_of_mem hmem herase
          simp [InlineStyleObserver.unsubscribe, h, hmem, herase, hmo, hone]
        · have hone : ¬ (o.subs = [(ctx, c)]) := by
            intro he
            rw [he] at herase
            simp [List.erase_cons] at herase
          have hie : (o.subs.erase (ctx, c)).isEmpty = false := by
            cases hs : o.subs.erase (ctx, c)
            · exact absurd hs herase
            · simp
          simp [InlineStyleObserver.unsubscribe, h, hmem, hie, hone]
      · have hone : ¬ (o.subs = [(ctx, c)]) := by
          intro he
          rw [he] at hmem
          simp at hmem
        simp [InlineStyleObserver.unsubscribe, h, hmem, hone]

/-- C4 witness: instantiation of `watch_iff_subscribers` on
`sampleObsWorld`, removing / re-adding subscriber `(styleObserverContext, 0)`. -/
theorem watch_iff_subscribers_witness :
    sampleObsWorld.obsHeap[0]? = some sampleObs ∧
    sampleObs.mo = ! sampleObs.subs.isEmpty ∧
    ((∃ o₁, (InlineStyleObserver.subscribe sampleObsWorld 0
        styleObserverContext 0).1.obsHeap[0]? = some o₁ ∧
      o₁.mo = !o₁.subs.isEmpty ∧ o₁.subs.isEmpty = false) ∧
    (InlineStyleObserver.subscribe sampleObsWorld 0
        styleObserverContext 0).2 =
      (if sampleObs.subs.isEmpty then [Eff.moObserve 0] else []) ∧
    (∃ o₂, (InlineStyleObserver.unsubscribe sampleObsWorld 0
        styleObserverContext 0).1.obsHeap[0]? = some o₂ ∧
      o₂.mo = !o₂.subs.isEmpty) ∧
    (InlineStyleObserver.unsubscribe sampleObsWorld 0
        styleObserverContext 0).2 =
      (if sampleObs.subs = [(styleObserverContext, 0)]
        then [Eff.moDisconnect 0] else [])) :=
  ⟨rfl, rfl,
    watch_iff_subscribers sampleObsWorld 0 sampleObs
      styleObserverContext 0 rfl rfl⟩

/-- `subscribe` only touches the observer heap. -/
theorem subscribe_frame (w : World) (oid : Nat) (ctx : String) (c : Nat) :
    (InlineStyleObserver.subscribe w oid ctx c).1.style = w.style ∧
    (InlineStyleObserver.subscribe w oid ctx c).1.hasStyleAttr = w.hasStyleAttr ∧
    (InlineStyleObserver.subscribe w oid ctx c).1.sources = w.sources ∧
    (InlineStyleObserver.subscribe w oid ctx c).1.bindings = w.bindings ∧
    (InlineStyleObserver.subscribe w oid ctx c).1.obsCache = w.obsCache := by
  unfold InlineStyleObserver.subscribe
  split
  · simp
  · split_ifs <;> simp

/-- `subscribe`'s only possible external interaction is starting the watch. -/
theorem subscribe_trace (w : World) (oid : Nat) (ctx : String) (c : Nat) :
    (InlineStyleObserver.subscribe w oid ctx c).2 = [] ∨
    (InlineStyleObserver.subscribe w oid ctx c).2 = [Eff.moObserve oid] := by
  unfold InlineStyleObserver.subscribe
  split
  · simp
  · split_ifs <;> simp

/-- `unsubscribe` only touches the observer heap. -/
theorem unsubscribe_frame (w : World) (oid : Nat) (ctx : String) (c : Nat) :
    (InlineStyleObserver.unsubscribe w oid ctx c).1.style = w.style ∧
    (InlineStyleObserver.unsubscribe w oid ctx c).1.hasStyleAttr = w.hasStyleAttr ∧
    (InlineStyleObserver.unsubscribe w oid ctx c).1.sources = w.sources ∧
    (InlineStyleObserver.unsubscribe w oid ctx c).1.bindings = w.bindings ∧
    (InlineStyleObserver.unsubscribe w oid ctx c).1.obsCache = w.obsCache := by
  unfold InlineStyleObserver.unsubscribe
  split
  · simp
  · split_ifs <;> simp <;> split <;> simp

/-- `setValue` never touches the cache, the bindings, or the sources. -/
theorem setValue_frame (w : World) (oid : Nat) (v : JSVal) :
    (InlineStyleObserver.setValue w oid v).1.obsCache = w.obsCache ∧
    (InlineStyleObserver.setValue w oid v).1.bindings = w.bindings ∧
    (InlineStyleObserver.setValue w oid v).1.sources = w.sources := by
  unfold InlineStyleObserver.setValue
  split
  · simp
  · split_ifs <;> simp

/-- Observer resolution leaves style, attribute, and sources alone. -/
theorem lookupOrCreate_frame (w : World) (p : String) :
    (lookupOrCreateObserver w p).1.style = w.style ∧
    (lookupOrCreateObserver w p).1.hasStyleAttr = w.hasStyleAttr ∧
    (lookupOrCreateObserver w p).1.sources = w.sources := by
  simp only [lookupOrCreateObserver]
  split <;> simp

/-- Characterization of the from-view initial reconciliation: the source is
written exactly when the style attribute is present and the rule is found,
the style surface is untouched, and the trace is the optional assignment
followed by at most a watch start. -/
theorem bindModeInit_fromView_char (w : World) (bid oid src : Nat)
    (rule : String) :
    ((bindModeInit w bid oid src .fromView rule).1.style = w.style ∧
     (bindModeInit w bid oid src .fromView rule).1.sources =
       (match w.hasStyleAttr, StyleBinding.findRuleValue w.style rule with
        | true, some rv => w.sources.set src (JSVal.str rv)
        | _, _ => w.sources)) ∧
    ∃ t, (bindModeInit w bid oid src .fromView rule).2 =
        (match w.hasStyleAttr, StyleBinding.findRuleValue w.style rule with
         | true, some rv => [Eff.assignExpr bid (JSVal.str rv)]
         | _, _ => []) ++ t ∧
      (t = [] ∨ t = [Eff.moObserve oid]) := by
  rcases hattr : w.hasStyleAttr with _ | _
  · constructor
    · simp [bindModeInit, hattr, subscribe_frame]
    · exact ⟨(InlineStyleObserver.subscribe w oid styleObserverContext bid).2,
        by simp [bindModeInit, hattr],
        subscribe_trace w oid styleObserverContext bid⟩
  · rcases hfind : StyleBinding.findRuleValue w.style rule with _ | rv
    · constructor
      · simp [bindModeInit, hattr, hfind, subscribe_frame]
      · exact ⟨(InlineStyleObserver.subscribe w oid styleObserverContext bid).2,
          by simp [bindModeInit, hattr, hfind],
          subscribe_trace w oid styleObserverContext bid⟩
    · constructor
      · simp [bindModeInit, hattr, hfind, StyleBinding.updateSource,
          assignSourceExpr, subscribe_frame]
      · exact ⟨(InlineStyleObserver.subscribe
            (assignSourceExpr w src (.str rv)) oid styleObserverContext bid).2,
          by simp [bindModeInit, hattr, hfind, StyleBinding.updateSource],
          subscribe_trace _ oid styleObserverContext bid⟩

/-- The binding record as `bind` leaves it: bound to `src` with observer `oid`. -/
def StyleBinding.asBound (b : StyleBinding) (src oid : Nat) : StyleBinding :=
  { b with isBound := true, source := some src, styleObserver := some oid }

/-- Store a binding record at index `bid` of the binding heap. -/
def World.withBindingSet (w : World) (bid : Nat) (b : StyleBinding) : World :=
  { w with bindings := w.bindings.set bid b }

/-- C3: a from-view `bind(source)` assigns to the source iff the element has
a `style` attribute and the hyphenated target rule is found among the
enumerated rules (assigning that rule's live value); otherwise the sources
are untouched; and it never evaluates the source expression, never writes
the style surface, and never notifies a subscriber. -/
theorem fromView_bind_initial_read (w : World) (bid src : Nat)
    (b : StyleBinding) (h : w.bindings[bid]? = some b)
    (hub : b.isBound = false) (hm : b.mode = .fromView) :
    ((StyleBinding.bind w bid src).1.sources =
      (match w.hasStyleAttr,
          StyleBinding.findRuleValue w.style (hyphenate b.targetProperty) with
       | true, some rv => w.sources.set src (JSVal.str rv)
       | _, _ => w.sources)) ∧
    (((StyleBinding.bind w bid src).2.any Eff.isAssignExpr) = true ↔
      (w.hasStyleAttr = true ∧
        (StyleBinding.findRuleValue w.style
          (hyphenate b.targetProperty)).isSome = true)) ∧
    (∀ rv, w.hasStyleAttr = true →
      StyleBinding.findRuleValue w.style (hyphenate b.targetProperty) =
        some rv →
      Eff.assignExpr bid (JSVal.str rv) ∈ (StyleBinding.bind w bid src).2) ∧
    ((StyleBinding.bind w bid src).2.all
      (fun e => !e.isEvalExpr && !e.isSetProp && !e.isNotifySub)) = true ∧
    (StyleBinding.bind w bid src).1.style = w.style := by
  have hb : StyleBinding.bind w bid src = StyleBinding.bindCore w bid b src := by
    simp [StyleBinding.bind, h, hub]
  rcases hre : lookupOrCreateObserver w b.targetProperty with ⟨w1, oid⟩
  have hfr := lookupOrCreate_frame w b.targetProperty
  rw [hre] at hfr
  obtain ⟨hst1, hat1, hsr1⟩ := hfr
  have hcore : StyleBinding.bindCore w bid b src =
      ((bindModeInit (World.withBindingSet w1 bid (b.asBound src oid))
          bid oid src b.mode (hyphenate b.targetProperty)).1,
       (if b.exprHasBind then [Eff.exprBind bid] else []) ++
       (bindModeInit (World.withBindingSet w1 bid (b.asBound src oid))
          bid oid src b.mode (hyphenate b.targetProperty)).2) := by
    simp [StyleBinding.bindCore, hre, StyleBinding.asBound,
      World.withBindingSet]
  have hW2st : (World.withBindingSet w1 bid (b.asBound src oid)).style =
      w.style := hst1
  have hW2at : (World.withBindingSet w1 bid (b.asBound src oid)).hasStyleAttr =
      w.hasStyleAttr := hat1
  have hW2sr : (World.withBindingSet w1 bid (b.asBound src oid)).sources =
      w.sources := hsr1
  have hchar := bindModeInit_fromView_char
    (World.withBindingSet w1 bid (b.asBound src oid)) bid oid src
    (hyphenate b.targetProperty)
  rw [hW2st, hW2at, hW2sr] at hchar
  obtain ⟨⟨hcs, hcsrc⟩, t, htr, ht⟩ := hchar
  rw [hb, hcore, hm]
  refine ⟨?_, ?_, ?_, ?_, ?_⟩
  · simpa using hcsrc
  · simp only [List.any_append, htr]
    rcases hattr : w.hasStyleAttr with _ | _ <;>
      rcases hfind : StyleBinding.findRuleValue w.style
        (hyphenate b.targetProperty) with _ | rv <;>
      rcases ht with ht | ht <;>
      subst ht <;>
      rcases hbe : b.exprHasBind with _ | _ <;>
      simp [hattr, hfind, Eff.isAssignExpr]
  · intro rv hattr hfind
    rw [hattr, hfind] at htr
    simp only [List.mem_append, htr]
    simp
  · simp only [List.all_append, htr]
    rcases hattr : w.hasStyleAttr with _ | _ <;>
      rcases hfind : StyleBinding.findRuleValue w.style
        (hyphenate b.targetProperty) with _ | rv <;>
      rcases ht with ht | ht <;>
      subst ht <;>
      rcases hbe : b.exprHasBind with _ | _ <;>
      simp [hattr, hfind, Eff.isEvalExpr, Eff.isSetProp, Eff.isNotifySub]
  · simpa using hcs

/-- A sample unbound from-view binding on `color`. -/
def sampleFvBinding : StyleBinding :=
  { targetProperty := "color", mode := .fromView }

/-- A sample world for the from-view initial read: inline `color: red`. -/
def sampleFvWorld : World :=
  { style := [("color", "red")], hasStyleAttr := true,
    obsHeap := [], obsCache := [], bindings := [sampleFvBinding],
    sources := [JSVal.undef] }

/-- C3 witness: from-view bind over inline `color: red` assigns `"red"`. -/
theorem fromView_bind_initial_read_witness :
    sampleFvWorld.bindings[0]? = some sampleFvBinding ∧
    sampleFvBinding.isBound = false ∧
    sampleFvBinding.mode = .fromView ∧
    (((StyleBinding.bind sampleFvWorld 0 0).1.sources =
      (match sampleFvWorld.hasStyleAttr,
          StyleBinding.findRuleValue sampleFvWorld.style
            (hyphenate sampleFvBinding.targetProperty) with
       | true, some rv => sampleFvWorld.sources.set 0 (JSVal.str rv)
       | _, _ => sampleFvWorld.sources)) ∧
    (((StyleBinding.bind sampleFvWorld 0 0).2.any Eff.isAssignExpr) = true ↔
      (sampleFvWorld.hasStyleAttr = true ∧
        (StyleBinding.findRuleValue sampleFvWorld.style
          (hyphenate sampleFvBinding.targetProperty)).isSome = true)) ∧
    (∀ rv, sampleFvWorld.hasStyleAttr = true →
      StyleBinding.findRuleValue sampleFvWorld.style
          (hyphenate sampleFvBinding.targetProperty) = some rv →
      Eff.assignExpr 0 (JSVal.str rv) ∈ (StyleBinding.bind sampleFvWorld 0 0).2) ∧
    ((StyleBinding.bind sampleFvWorld 0 0).2.all
      (fun e => !e.isEvalExpr && !e.isSetProp && !e.isNotifySub)) = true ∧
    (StyleBinding.bind sampleFvWorld 0 0).1.style = sampleFvWorld.style) :=
  ⟨rfl, rfl, rfl,
    fromView_bind_initial_read sampleFvWorld 0 0 sampleFvBinding rfl rfl rfl⟩

/-- Expression evaluation depends only on the source cells. -/
theorem evalSourceExpr_congr (w w' : World) (src : Nat)
    (h : w'.sources = w.sources) :
    evalSourceExpr w' src = evalSourceExpr w src := by
  simp [evalSourceExpr, h]

/-- When the evaluated source value equals the observer's cached value, the
non-from-view initial reconciliation leaves the style surface untouched and
writes nothing to it. -/
theorem bindModeInit_dedup_no_write (w : World) (bid oid src : Nat)
    (mode : BindingMode) (rule : String) (o : InlineStyleObserver)
    (hm : mode ≠ .fromView)
    (ho : w.obsHeap[oid]? = some o)
    (hv : evalSourceExpr w src = o.value) :
    (bindModeInit w bid oid src mode rule).1.style = w.style ∧
    ((bindModeInit w bid oid src mode rule).2.all
      (fun e => !e.isSetProp)) = true := by
  have hsv : InlineStyleObserver.setValue w oid (evalSourceExpr w src) =
      (w, []) := by
    rw [hv]
    exact (setValue_char w oid o o.value ho).1 rfl
  cases mode with
  | fromView => exact absurd rfl hm
  | oneTime =>
    simp [bindModeInit, StyleBinding.updateTarget, hsv, Eff.isSetProp]
  | toView =>
    simp [bindModeInit, StyleBinding.updateTarget, hsv, Eff.isSetProp]
  | twoWay =>
    constructor
    · simp [bindModeInit, StyleBinding.updateTarget, hsv, subscribe_frame]
    · simp only [bindModeInit, StyleBinding.updateTarget]
      rcases subscribe_trace w oid styleObserverContext bid with ht | ht <;>
        simp [hsv, ht, Eff.isSetProp]

/-- C10: a freshly constructed observer caches `undefined`, so
`setValue(undefined)` is a complete no-op on it; the first `setValue` of a
value other than `undefined` notifies with old value `undefined`; and a
one-time / to-view / two-way `bind` whose expression evaluates to
`undefined` and which creates a fresh observer never touches the element's
inline style. -/
theorem fresh_observer_undefined_start (w : World) (bid oid src : Nat)
    (b : StyleBinding) (o : InlineStyleObserver) (v : JSVal) (p : String)
    (h : w.obsHeap[oid]? = some o) (hval : o.value = .undef) :
    ((InlineStyleObserver.create p).value = .undef ∧
     (InlineStyleObserver.create p).prevValue = .undef) ∧
    InlineStyleObserver.setValue w oid .undef = (w, []) ∧
    (v ≠ .undef →
      (InlineStyleObserver.setValue w oid v).2 =
        Eff.setProp o.hyphenatedCssRule v :: callSubscribers o.subs v .undef) ∧
    (w.bindings[bid]? = some b → b.isBound = false → b.mode ≠ .fromView →
      List.lookup (hyphenate b.targetProperty) w.obsCache = none →
      evalSourceExpr w src = .undef →
      (StyleBinding.bind w bid src).1.style = w.style ∧
      ((StyleBinding.bind w bid src).2.all (fun e => !e.isSetProp)) = true) := by
  refine ⟨⟨rfl, rfl⟩, ?_, ?_, ?_⟩
  · exact (setValue_char w oid o .undef h).1 hval.symm
  · intro hne
    have := (setValue_char w oid o v h).2 (by rw [hval]; exact hne)
    rw [this, hval]
  · intro hbid hub hm hcache hev
    have hb : StyleBinding.bind w bid src = StyleBinding.bindCore w bid b src := by
      simp [StyleBinding.bind, hbid, hub]
    have hre : lookupOrCreateObserver w b.targetProperty =
        ({ w with
            obsHeap := w.obsHeap ++ [InlineStyleObserver.create b.targetProperty],
            obsCache := w.obsCache ++
              [(hyphenate b.targetProperty, w.obsHeap.length)] },
          w.obsHeap.length) := by
      simp [lookupOrCreateObserver, hcache]
    have hcore : StyleBinding.bindCore w bid b src =
        ((bindModeInit
            (World.withBindingSet
              { w with
                  obsHeap := w.obsHeap ++
                    [InlineStyleObserver.create b.targetProperty],
                  obsCache := w.obsCache ++
                    [(hyphenate b.targetProperty, w.obsHeap.length)] }
              bid (b.asBound src w.obsHeap.length))
            bid w.obsHeap.length src b.mode (hyphenate b.targetProperty)).1,
         (if b.exprHasBind then [Eff.exprBind bid] else []) ++
         (bindModeInit
            (World.withBindingSet
              { w with
                  obsHeap := w.obsHeap ++
                    [InlineStyleObserver.create b.targetProperty],
                  obsCache := w.obsCache ++
                    [(hyphenate b.targetProperty, w.obsHeap.length)] }
              bid (b.asBound src w.obsHeap.length))
            bid w.obsHeap.length src b.mode (hyphenate b.targetProperty)).2) := by
      simp [StyleBinding.bindCore, hre, StyleBinding.asBound,
        World.withBindingSet]
    have hWo : (World.withBindingSet
        { w with
            obsHeap := w.obsHeap ++
              [InlineStyleObserver.create b.targetProperty],
            obsCache := w.obsCache ++
              [(hyphenate b.targetProperty, w.obsHeap.length)] }
        bid (b.asBound src w.obsHeap.length)).obsHeap[w.obsHeap.length]? =
        some (InlineStyleObserver.create b.targetProperty) := by
      simp [World.withBindingSet]
    have hWs : (World.withBindingSet
        { w with
            obsHeap := w.obsHeap ++
              [InlineStyleObserver.create b.targetProperty],
            obsCache := w.obsCache ++
              [(hyphenate b.targetProperty, w.obsHeap.length)] }
        bid (b.asBound src w.obsHeap.length)).sources = w.sources := by
      simp [World.withBindingSet]
    have hWev : evalSourceExpr
        (World.withBindingSet
          { w with
              obsHeap := w.obsHeap ++
                [InlineStyleObserver.create b.targetProperty],
              obsCache := w.obsCache ++
                [(hyphenate b.targetProperty, w.obsHeap.length)] }
          bid (b.asBound src w.obsHeap.length)) src =
        (InlineStyleObserver.create b.targetProperty).value := by
      rw [evalSourceExpr_congr w _ src hWs, hev]
      rfl
    have hmain := bindModeInit_dedup_no_write
      (World.withBindingSet
        { w with
            obsHeap := w.obsHeap ++
              [InlineStyleObserver.create b.targetProperty],
            obsCache := w.obsCache ++
              [(hyphenate b.targetProperty, w.obsHeap.length)] }
        bid (b.asBound src w.obsHeap.length))
      bid w.obsHeap.length src b.mode (hyphenate b.targetProperty)
      (InlineStyleObserver.create b.targetProperty) hm hWo hWev
    rw [hb, hcore]
    constructor
    · rw [hmain.1]
      simp [World.withBindingSet]
    · rw [List.all_append, hmain.2]
      rcases hbe : b.exprHasBind with _ | _ <;> simp [hbe, Eff.isSetProp]

/-- A freshly constructed observer on `color`. -/
def sampleFreshObs : InlineStyleObserver := InlineStyleObserver.create "color"

/-- A sample world with a fresh observer and an unbound to-view binding on
`opacity` whose source cell holds `undefined`. -/
def sampleFreshWorld : World :=
  { style := [], hasStyleAttr := false,
    obsHeap := [sampleFreshObs], obsCache := [],
    bindings := [{ targetProperty := "opacity", mode := .toView }],
    sources := [JSVal.undef] }

/-- C10 witness: instantiation of `fresh_observer_undefined_start` on
`sampleFreshWorld`. -/
theorem fresh_observer_undefined_start_witness :
    sampleFreshWorld.obsHeap[0]? = some sampleFreshObs ∧
    sampleFreshObs.value = .undef ∧
    (((InlineStyleObserver.create "color").value = .undef ∧
      (InlineStyleObserver.create "color").prevValue = .undef) ∧
    InlineStyleObserver.setValue sampleFreshWorld 0 .undef =
      (sampleFreshWorld, []) ∧
    ((JSVal.str "red") ≠ .undef →
      (InlineStyleObserver.setValue sampleFreshWorld 0 (.str "red")).2 =
        Eff.setProp sampleFreshObs.hyphenatedCssRule (.str "red") ::
          callSubscribers sampleFreshObs.subs (.str "red") .undef) ∧
    (sampleFreshWorld.bindings[0]? =
        some { targetProperty := "opacity", mode := .toView } →
      StyleBinding.isBound { targetProperty := "opacity", mode := .toView } =
        false →
      StyleBinding.mode { targetProperty := "opacity", mode := .toView } ≠
        .fromView →
      List.lookup
        (hyphenate (StyleBinding.targetProperty
          { targetProperty := "opacity", mode := .toView }))
        sampleFreshWorld.obsCache = none →
      evalSourceExpr sampleFreshWorld 0 = .undef →
      (StyleBinding.bind sampleFreshWorld 0 0).1.style =
        sampleFreshWorld.style ∧
      ((StyleBinding.bind sampleFreshWorld 0 0).2.all
        (fun e => !e.isSetProp)) = true)) :=
  ⟨rfl, rfl,
    fresh_observer_undefined_start sampleFreshWorld 0 0 0
      { targetProperty := "opacity", mode := .toView } sampleFreshObs
      (.str "red") "color" rfl rfl⟩

/-- Reading back a rule just declared on the style surface. -/
theorem getPropertyValue_setPropRaw (st : Style) (p v : String) :
    Style.getPropertyValue (Style.setPropRaw st p v) p = v := by
  induction st with
  | nil => simp [Style.setPropRaw, Style.getPropertyValue, List.lookup]
  | cons e rest ih =>
    obtain ⟨q, val⟩ := e
    by_cases he : q = p
    · simp [Style.setPropRaw, he, Style.getPropertyValue, List.lookup]
    · have hb : (p == q) = false := by simp [Ne.symm he]
      simp only [Style.setPropRaw, he, if_false, Style.getPropertyValue,
        List.lookup, hb] at ih ⊢
      exact ih

/-- C2: two-way round trip settles in one extra hop.  After the observer
notifies the bound two-way binding of a new value `v` (strictly different
from the old one), the binding assigns `v` to the source; the resulting
source-context dispatch re-evaluates the expression to `v`, reads the
observer's live value (also `v`), and performs no target write — its trace
is exactly evaluate / connect / unobserve, with no `setProp` and no
notification, and the style surface, observer heap and sources are left as
the assignment made them.  Symmetrically, an external write of the target
style to a string equal to the current source-derived cached value makes
the mutation-driven `syncValue` a complete no-op: zero notifications in
either direction. -/
theorem twoWay_no_echo (w : World) (bid oid sid : Nat)
    (b : StyleBinding) (o : InlineStyleObserver) (v old nv2 ov2 : JSVal)
    (hb : w.bindings[bid]? = some b) (hbound : b.isBound = true)
    (hmode : b.mode = .twoWay) (hobs : b.styleObserver = some oid)
    (hsrc : b.source = some sid) (hsid : sid < w.sources.length)
    (ho : w.obsHeap[oid]? = some o)
    (hlive : InlineStyleObserver.getValue w oid = v)
    (hne : v ≠ old) :
    StyleBinding.call w bid styleObserverContext v old =
      Except.ok (assignSourceExpr w sid v, [Eff.assignExpr bid v]) ∧
    evalSourceExpr (assignSourceExpr w sid v) sid = v ∧
    InlineStyleObserver.getValue (assignSourceExpr w sid v) oid = v ∧
    StyleBinding.call (assignSourceExpr w sid v) bid sourceContext nv2 ov2 =
      Except.ok
        (World.withBindingSet (assignSourceExpr w sid v) bid
          { b with version := b.version + 1 },
         [Eff.evalExpr bid v, Eff.exprConnect bid,
          Eff.unobserveDeps bid false]) ∧
    (∀ s, o.value = .str s →
      InlineStyleObserver.syncValue (extSetStyle w o.hyphenatedCssRule s) oid =
        (extSetStyle w o.hyphenatedCssRule s, [])) := by
  have hd : ¬ (styleObserverContext = sourceContext) := by decide
  have hb1 : (assignSourceExpr w sid v).bindings[bid]? = some b := by
    simpa [assignSourceExpr] using hb
  have heval : evalSourceExpr (assignSourceExpr w sid v) sid = v := by
    simp [evalSourceExpr, assignSourceExpr]
    rw [List.getElem?_set_eq_of_lt v hsid]
    rfl
  have hgv : InlineStyleObserver.getValue (assignSourceExpr w sid v) oid = v := by
    have : InlineStyleObserver.getValue (assignSourceExpr w sid v) oid =
        InlineStyleObserver.getValue w oid := by
      simp [InlineStyleObserver.getValue, assignSourceExpr]
    rw [this, hlive]
  refine ⟨?_, heval, hgv, ?_, ?_⟩
  · simp [StyleBinding.call, hb, hbound, hd, hne, hsrc,
      StyleBinding.updateSource]
  · have hmo : ({ b with version := b.version + 1 } : StyleBinding) =
        { targetProperty := b.targetProperty, mode := b.mode,
          isBound := true, source := some sid, styleObserver := some oid,
          version := b.version + 1, exprHasBind := b.exprHasBind,
          exprHasUnbind := b.exprHasUnbind } := by
      rw [← hbound, ← hsrc, ← hobs]
    simp only [StyleBinding.call, hb1, hbound, Bool.true_eq_false, if_false,
      reduceIte, hobs, hsrc, heval, hgv, hmode]
    simp [World.withBindingSet, hmo]
  · intro s hvs
    have ho' : (extSetStyle w o.hyphenatedCssRule s).obsHeap[oid]? = some o := by
      simpa [extSetStyle] using ho
    have hfresh : JSVal.str (Style.getPropertyValue
        (extSetStyle w o.hyphenatedCssRule s).style o.hyphenatedCssRule) =
        o.value := by
      simp [extSetStyle, getPropertyValue_setPropRaw, hvs]
    exact (syncValue_char
      (extSetStyle w o.hyphenatedCssRule s) oid o ho').1 hfresh

/-- C2 witness: instantiation of `twoWay_no_echo` on `sampleBoundWorld`
with the round-tripping value `"blue"`. -/
theorem twoWay_no_echo_witness :
    sampleBoundWorld.bindings[0]? = some sampleBoundBinding ∧
    sampleBoundBinding.isBound = true ∧
    sampleBoundBinding.mode = .twoWay ∧
    sampleBoundBinding.styleObserver = some 0 ∧
    sampleBoundBinding.source = some 0 ∧
    0 < sampleBoundWorld.sources.length ∧
    sampleBoundWorld.obsHeap[0]? = some sampleBoundObs ∧
    InlineStyleObserver.getValue sampleBoundWorld 0 = .str "blue" ∧
    (JSVal.str "blue") ≠ .undef ∧
    (StyleBinding.call sampleBoundWorld 0 styleObserverContext
        (.str "blue") .undef =
      Except.ok (assignSourceExpr sampleBoundWorld 0 (.str "blue"),
        [Eff.assignExpr 0 (.str "blue")]) ∧
    evalSourceExpr (assignSourceExpr sampleBoundWorld 0 (.str "blue")) 0 =
      .str "blue" ∧
    InlineStyleObserver.getValue
      (assignSourceExpr sampleBoundWorld 0 (.str "blue")) 0 = .str "blue" ∧
    StyleBinding.call (assignSourceExpr sampleBoundWorld 0 (.str "blue")) 0
        sourceContext .undef .undef =
      Except.ok
        (World.withBindingSet
          (assignSourceExpr sampleBoundWorld 0 (.str "blue")) 0
          { sampleBoundBinding with
              version := sampleBoundBinding.version + 1 },
         [Eff.evalExpr 0 (.str "blue"), Eff.exprConnect 0,
          Eff.unobserveDeps 0 false]) ∧
    (∀ s, sampleBoundObs.value = .str s →
      InlineStyleObserver.syncValue
          (extSetStyle sampleBoundWorld
            sampleBoundObs.hyphenatedCssRule s) 0 =
        (extSetStyle sampleBoundWorld
          sampleBoundObs.hyphenatedCssRule s, []))) :=
  ⟨rfl, rfl, rfl, rfl, rfl, by decide, rfl, rfl, by decide,
    twoWay_no_echo sampleBoundWorld 0 0 0 sampleBoundBinding sampleBoundObs
      (.str "blue") .undef .undef .undef rfl rfl rfl rfl rfl (by decide)
      rfl rfl (by decide)⟩

/-- An index with a successful optional lookup is in bounds. -/
theorem lt_of_getElem?_some {α : Type} {l : List α} {i : Nat} {a : α}
    (h : l[i]? = some a) : i < l.length := by
  by_contra hge
  push_neg at hge
  rw [List.getElem?_eq_none hge] at h
  cases h

/-- Association lookup over a concatenation tries the left part first. -/
theorem lookup_append (k : String) (l1 l2 : List (String × Nat)) :
    List.lookup k (l1 ++ l2) =
      (match List.lookup k l1 with
       | some v => some v
       | none => List.lookup k l2) := by
  induction l1 with
  | nil => simp [List.lookup]
  | cons e rest ih =>
    obtain ⟨q, val⟩ := e
    by_cases he : k == q
    · simp [List.lookup, he]
    · have hb : (k == q) = false := by
        cases hx : k == q
        · rfl
        · exact absurd hx he
      simp [List.lookup, hb, ih]

/-- `subscribe` keeps the heap's length and the observer's identity fields,
and only ever grows the subscriber set by the given pair. -/
theorem subscribe_heap_spec (w : World) (oid : Nat) (ctx : String) (c : Nat)
    (o : InlineStyleObserver) (h : w.obsHeap[oid]? = some o) :
    (InlineStyleObserver.subscribe w oid ctx c).1.obsHeap.length =
      w.obsHeap.length ∧
    ∃ o', (InlineStyleObserver.subscribe w oid ctx c).1.obsHeap[oid]? =
        some o' ∧
      o'.cssRule = o.cssRule ∧ o'.hyphenatedCssRule = o.hyphenatedCssRule ∧
      o'.value = o.value ∧
      (ctx, c) ∈ o'.subs ∧ (∀ q ∈ o.subs, q ∈ o'.subs) := by
  have hlt : oid < w.obsHeap.length := lt_of_getElem?_some h
  have hset : ∀ (x : InlineStyleObserver),
      (w.obsHeap.set oid x)[oid]? = some x :=
    fun x => List.getElem?_set_eq_of_lt x hlt
  constructor
  · simp only [InlineStyleObserver.subscribe, h]
    split_ifs <;> simp
  · simp only [InlineStyleObserver.subscribe, h]
    split_ifs <;>
      refine ⟨_, hset _, rfl, rfl, rfl, ?_, ?_⟩ <;> simp_all

/-- `setValue` keeps the heap's length and the observer's identity fields
and subscriber set. -/
theorem setValue_heap_spec (w : World) (oid : Nat) (v : JSVal)
    (o : InlineStyleObserver) (h : w.obsHeap[oid]? = some o) :
    (InlineStyleObserver.setValue w oid v).1.obsHeap.length =
      w.obsHeap.length ∧
    ∃ o', (InlineStyleObserver.setValue w oid v).1.obsHeap[oid]? = some o' ∧
      o'.cssRule = o.cssRule ∧ o'.hyphenatedCssRule = o.hyphenatedCssRule ∧
      o'.subs = o.subs := by
  have hlt : oid < w.obsHeap.length := lt_of_getElem?_some h
  rcases setValue_char w oid o v h with ⟨hteq, htne⟩
  by_cases hv : v = o.value
  · rw [hteq hv]
    exact ⟨rfl, o, h, rfl, rfl, rfl⟩
  · rw [htne hv]
    exact ⟨by simp, _, List.getElem?_set_eq_of_lt _ hlt, rfl, rfl, rfl⟩

/-- `unsubscribe` keeps the observer's identity fields and every subscriber
pair other than the removed one. -/
theorem unsubscribe_heap_spec (w : World) (oid : Nat) (ctx : String) (c : Nat)
    (o : InlineStyleObserver) (h : w.obsHeap[oid]? = some o) :
    ∃ o', (InlineStyleObserver.unsubscribe w oid ctx c).1.obsHeap[oid]? =
        some o' ∧
      o'.cssRule = o.cssRule ∧ o'.hyphenatedCssRule = o.hyphenatedCssRule ∧
      (∀ q ∈ o.subs, q ≠ (ctx, c) → q ∈ o'.subs) := by
  have hlt : oid < w.obsHeap.length := lt_of_getElem?_some h
  have hset : ∀ (x : InlineStyleObserver),
      (w.obsHeap.set oid x)[oid]? = some x :=
    fun x => List.getElem?_set_eq_of_lt x hlt
  by_cases hmem : (ctx, c) ∈ o.subs
  · simp only [InlineStyleObserver.unsubscribe, h, hmem, if_true]
    split_ifs <;>
      refine ⟨_, hset _, rfl, rfl, fun q hq hqne => ?_⟩ <;>
      exact (List.mem_erase_of_ne hqne).mpr hq
  · simp only [InlineStyleObserver.unsubscribe, h, hmem, if_false]
    exact ⟨o, rfl, rfl, rfl, fun q hq _ => hq⟩

/-- The mode-dependent tail of `bind` never touches the cache or the
bindings, keeps the heap length and the observer's identity fields, only
grows the subscriber set, and subscribes the binding itself exactly in the
two-way and from-view modes. -/
theorem bindModeInit_heap_spec (w : World) (bid oid src : Nat)
    (mode : BindingMode) (rule : String) (o : InlineStyleObserver)
    (h : w.obsHeap[oid]? = some o) :
    (bindModeInit w bid oid src mode rule).1.obsCache = w.obsCache ∧
    (bindModeInit w bid oid src mode rule).1.bindings = w.bindings ∧
    (bindModeInit w bid oid src mode rule).1.obsHeap.length =
      w.obsHeap.length ∧
    ∃ o', (bindModeInit w bid oid src mode rule).1.obsHeap[oid]? = some o' ∧
      o'.cssRule = o.cssRule ∧ o'.hyphenatedCssRule = o.hyphenatedCssRule ∧
      (∀ q ∈ o.subs, q ∈ o'.subs) ∧
      ((mode = .twoWay ∨ mode = .fromView) →
        (styleObserverContext, bid) ∈ o'.subs) := by
  cases mode with
  | oneTime =>
    have h1 : (bindModeInit w bid oid src .oneTime rule).1 =
        (InlineStyleObserver.setValue w oid (evalSourceExpr w src)).1 := by
      simp [bindModeInit, StyleBinding.updateTarget]
    rw [h1]
    obtain ⟨hfc, hfb, _⟩ := setValue_frame w oid (evalSourceExpr w src)
    obtain ⟨hlen, o', ho', hc1, hc2, hsubs⟩ :=
      setValue_heap_spec w oid (evalSourceExpr w src) o h
    exact ⟨hfc, hfb, hlen, o', ho', hc1, hc2,
      fun q hq => hsubs ▸ hq, by rintro (h' | h') <;> cases h'⟩
  | toView =>
    have h1 : (bindModeInit w bid oid src .toView rule).1 =
        (InlineStyleObserver.setValue w oid (evalSourceExpr w src)).1 := by
      simp [bindModeInit, StyleBinding.updateTarget]
    rw [h1]
    obtain ⟨hfc, hfb, _⟩ := setValue_frame w oid (evalSourceExpr w src)
    obtain ⟨hlen, o', ho', hc1, hc2, hsubs⟩ :=
      setValue_heap_spec w oid (evalSourceExpr w src) o h
    exact ⟨hfc, hfb, hlen, o', ho', hc1, hc2,
      fun q hq => hsubs ▸ hq, by rintro (h' | h') <;> cases h'⟩
  | twoWay =>
    have h1 : (bindModeInit w bid oid src .twoWay rule).1 =
        (InlineStyleObserver.subscribe
          (InlineStyleObserver.setValue w oid (evalSourceExpr w src)).1
          oid styleObserverContext bid).1 := by
      simp [bindModeInit, StyleBinding.updateTarget]
    rw [h1]
    obtain ⟨hlen1, o1, ho1, hc11, hc12, hsubs1⟩ :=
      setValue_heap_spec w oid (evalSourceExpr w src) o h
    obtain ⟨hfc1, hfb1, _⟩ := setValue_frame w oid (evalSourceExpr w src)
    obtain ⟨hlen2, o2, ho2, hc21, hc22, _, hpair, hsubs2⟩ :=
      subscribe_heap_spec _ oid styleObserverContext bid o1 ho1
    obtain ⟨_, _, _, hfb2, hfc2⟩ :=
      subscribe_frame (InlineStyleObserver.setValue w oid
        (evalSourceExpr w src)).1 oid styleObserverContext bid
    refine ⟨hfc2.trans hfc1, hfb2.trans hfb1, hlen2.trans hlen1, o2, ho2,
      hc21.trans hc11, hc22.trans hc12, ?_, fun _ => hpair⟩
    intro q hq
    exact hsubs2 q (hsubs1 ▸ hq)
  | fromView =>
    rcases hattr : w.hasStyleAttr with _ | _
    · have h1 : (bindModeInit w bid oid src .fromView rule).1 =
          (InlineStyleObserver.subscribe w oid styleObserverContext bid).1 := by
        simp [bindModeInit, hattr]
      rw [h1]
      obtain ⟨hlen, o', ho', hc1, hc2, _, hpair, hsubs⟩ :=
        subscribe_heap_spec w oid styleObserverContext bid o h
      obtain ⟨_, _, _, hfb, hfc⟩ :=
        subscribe_frame w oid styleObserverContext bid
      exact ⟨hfc, hfb, hlen, o', ho', hc1, hc2, hsubs, fun _ => hpair⟩
    · rcases hfind : StyleBinding.findRuleValue w.style rule with _ | rv
      · have h1 : (bindModeInit w bid oid src .fromView rule).1 =
            (InlineStyleObserver.subscribe w oid styleObserverContext bid).1 := by
          simp [bindModeInit, hattr, hfind]
        rw [h1]
        obtain ⟨hlen, o', ho', hc1, hc2, _, hpair, hsubs⟩ :=
          subscribe_heap_spec w oid styleObserverContext bid o h
        obtain ⟨_, _, _, hfb, hfc⟩ :=
          subscribe_frame w oid styleObserverContext bid
        exact ⟨hfc, hfb, hlen, o', ho', hc1, hc2, hsubs, fun _ => hpair⟩
      · have h1 : (bindModeInit w bid oid src .fromView rule).1 =
            (InlineStyleObserver.subscribe
              (assignSourceExpr w src (.str rv)) oid
              styleObserverContext bid).1 := by
          simp [bindModeInit, hattr, hfind, StyleBinding.updateSource]
        rw [h1]
        have h' : (assignSourceExpr w src (.str rv)).obsHeap[oid]? = some o := by
          simpa [assignSourceExpr] using h
        obtain ⟨hlen, o', ho', hc1, hc2, _, hpair, hsubs⟩ :=
          subscribe_heap_spec _ oid styleObserverContext bid o h'
        obtain ⟨_, _, _, hfb, hfc⟩ :=
          subscribe_frame (assignSourceExpr w src (.str rv)) oid
            styleObserverContext bid
        refine ⟨hfc.trans (by simp [assignSourceExpr]),
          hfb.trans (by simp [assignSourceExpr]),
          hlen.trans (by simp [assignSourceExpr]), o', ho', hc1, hc2,
          hsubs, fun _ => hpair⟩

/-- A successful association lookup exhibits a member. -/
theorem mem_of_lookup_eq_some {k : String} {v : Nat}
    {l : List (String × Nat)} (h : List.lookup k l = some v) : (k, v) ∈ l := by
  induction l with
  | nil => cases h
  | cons e rest ih =>
    obtain ⟨q, val⟩ := e
    by_cases hb : k == q
    · simp only [List.lookup, hb] at h
      have hkq : k = q := by simpa using hb
      cases h
      subst hkq
      simp
    · have hb' : (k == q) = false := by
        cases hx : k == q
        · rfl
        · exact absurd hx hb
      simp only [List.lookup, hb'] at h
      exact List.mem_cons_of_mem _ (ih h)

/-- The bind body resolves exactly one observer id for the hyphenated
target rule: it is cached under that rule, present in the heap, subscribed
to by the binding in two-way/from-view modes, and when the cache already
held an id for the rule it is that same id with all prior subscribers
preserved. -/
theorem bindCore_spec (w : World) (bid src : Nat) (b : StyleBinding)
    (hcw : ∀ q ∈ w.obsCache, q.2 < w.obsHeap.length) :
    ∃ oid o',
      (StyleBinding.bindCore w bid b src).1.bindings =
        w.bindings.set bid (b.asBound src oid) ∧
      List.lookup (hyphenate b.targetProperty)
        (StyleBinding.bindCore w bid b src).1.obsCache = some oid ∧
      (∀ k, k ≠ hyphenate b.targetProperty →
        List.lookup k (StyleBinding.bindCore w bid b src).1.obsCache =
          List.lookup k w.obsCache) ∧
      (∀ q ∈ (StyleBinding.bindCore w bid b src).1.obsCache,
        q.2 < (StyleBinding.bindCore w bid b src).1.obsHeap.length) ∧
      (StyleBinding.bindCore w bid b src).1.obsHeap[oid]? = some o' ∧
      ((b.mode = .twoWay ∨ b.mode = .fromView) →
        (styleObserverContext, bid) ∈ o'.subs) ∧
      (∀ oid0 o0,
        List.lookup (hyphenate b.targetProperty) w.obsCache = some oid0 →
        w.obsHeap[oid0]? = some o0 →
        oid = oid0 ∧ (∀ q ∈ o0.subs, q ∈ o'.subs) ∧
        o'.cssRule = o0.cssRule ∧
        o'.hyphenatedCssRule = o0.hyphenatedCssRule) := by
  rcases hcache : List.lookup (hyphenate b.targetProperty) w.obsCache
    with _ | oid0
  · -- fresh observer created and cached
    have hre : lookupOrCreateObserver w b.targetProperty =
        ({ w with
            obsHeap := w.obsHeap ++
              [InlineStyleObserver.create b.targetProperty],
            obsCache := w.obsCache ++
              [(hyphenate b.targetProperty, w.obsHeap.length)] },
          w.obsHeap.length) := by
      simp [lookupOrCreateObserver, hcache]
    have h1 : (StyleBinding.bindCore w bid b src).1 =
        (bindModeInit
          (World.withBindingSet
            { w with
                obsHeap := w.obsHeap ++
                  [InlineStyleObserver.create b.targetProperty],
                obsCache := w.obsCache ++
                  [(hyphenate b.targetProperty, w.obsHeap.length)] }
            bid (b.asBound src w.obsHeap.length))
          bid w.obsHeap.length src b.mode (hyphenate b.targetProperty)).1 := by
      simp [StyleBinding.bindCore, hre, StyleBinding.asBound,
        World.withBindingSet]
    have hW2o : (World.withBindingSet
        { w with
            obsHeap := w.obsHeap ++
              [InlineStyleObserver.create b.targetProperty],
            obsCache := w.obsCache ++
              [(hyphenate b.targetProperty, w.obsHeap.length)] }
        bid (b.asBound src w.obsHeap.length)).obsHeap[w.obsHeap.length]? =
        some (InlineStyleObserver.create b.targetProperty) := by
      simp [World.withBindingSet]
    obtain ⟨hmc, hmb, hml, o', ho', hr1, hr2, hsubs, hpair⟩ :=
      bindModeInit_heap_spec
        (World.withBindingSet
          { w with
              obsHeap := w.obsHeap ++
                [InlineStyleObserver.create b.targetProperty],
              obsCache := w.obsCache ++
                [(hyphenate b.targetProperty, w.obsHeap.length)] }
          bid (b.asBound src w.obsHeap.length))
        bid w.obsHeap.length src b.mode (hyphenate b.targetProperty)
        (InlineStyleObserver.create b.targetProperty) hW2o
    rw [h1]
    refine ⟨w.obsHeap.length, o', ?_, ?_, ?_, ?_, ho', hpair, ?_⟩
    · rw [hmb]
      simp [World.withBindingSet]
    · rw [hmc]
      simp only [World.withBindingSet]
      rw [lookup_append]
      simp [hcache, List.lookup]
    · intro k hk
      rw [hmc]
      simp only [World.withBindingSet]
      rw [lookup_append]
      rcases hlk : List.lookup k w.obsCache with _ | kv
      · have : (k == hyphenate b.targetProperty) = false := by
          cases hx : k == hyphenate b.targetProperty
          · rfl
          · exact absurd (by simpa using hx) hk
        simp [List.lookup, this]
      · simp
    · intro q hq
      rw [hmc] at hq
      rw [hml]
      simp only [World.withBindingSet] at hq ⊢
      simp only [List.length_append, List.length_cons, List.length_nil]
      rcases List.mem_append.mp hq with hq | hq
      · exact Nat.lt_succ_of_lt (hcw q hq)
      · simp at hq
        subst hq
        exact Nat.lt_succ_self _
    · intro oid0' o0' hl _
      exact Option.noConfusion hl
  · -- existing observer found in the cache
    have hre : lookupOrCreateObserver w b.targetProperty = (w, oid0) := by
      simp [lookupOrCreateObserver, hcache]
    have hlt0 : oid0 < w.obsHeap.length :=
      hcw (hyphenate b.targetProperty, oid0) (mem_of_lookup_eq_some hcache)
    obtain ⟨o0, ho0⟩ : ∃ o0, w.obsHeap[oid0]? = some o0 :=
      ⟨_, List.getElem?_eq_getElem hlt0⟩
    have h1 : (StyleBinding.bindCore w bid b src).1 =
        (bindModeInit (World.withBindingSet w bid (b.asBound src oid0))
          bid oid0 src b.mode (hyphenate b.targetProperty)).1 := by
      simp [StyleBinding.bindCore, hre, StyleBinding.asBound,
        World.withBindingSet]
    have hW2o : (World.withBindingSet w bid
        (b.asBound src oid0)).obsHeap[oid0]? = some o0 := by
      simpa [World.withBindingSet] using ho0
    obtain ⟨hmc, hmb, hml, o', ho', hr1, hr2, hsubs, hpair⟩ :=
      bindModeInit_heap_spec (World.withBindingSet w bid (b.asBound src oid0))
        bid oid0 src b.mode (hyphenate b.targetProperty) o0 hW2o
    rw [h1]
    refine ⟨oid0, o', ?_, ?_, ?_, ?_, ho', hpair, ?_⟩
    · rw [hmb]
      simp [World.withBindingSet]
    · rw [hmc]
      simpa [World.withBindingSet] using hcache
    · intro k _
      rw [hmc]
      simp [World.withBindingSet]
    · intro q hq
      rw [hmc] at hq
      rw [hml]
      simp only [World.withBindingSet] at hq ⊢
      exact hcw q hq
    · intro oid0' o0' hl h0
      have hid : oid0 = oid0' := Option.some.inj hl
      subst hid
      have hoe : o0 = o0' := Option.some.inj (ho0.symm.trans h0)
      subst hoe
      exact ⟨rfl, hsubs, hr1, hr2⟩

/-- `unbind` of a bound binding is (state-wise) the observer unsubscribe on
the world with the binding record cleared. -/
theorem unbind_char (w : World) (bid oid : Nat) (b : StyleBinding)
    (h : w.bindings[bid]? = some b) (hbd : b.isBound = true)
    (hso : b.styleObserver = some oid) :
    (StyleBinding.unbind w bid).1 =
      (InlineStyleObserver.unsubscribe
        (World.withBindingSet w bid
          { b with isBound := false, source := none, styleObserver := none })
        oid styleObserverContext bid).1 := by
  simp [StyleBinding.unbind, h, hbd, hso, World.withBindingSet]

/-- `bind` on an unbound binding runs the bind body directly. -/
theorem bind_unbound_eq_core (w : World) (bid src : Nat) (b : StyleBinding)
    (h : w.bindings[bid]? = some b) (hub : b.isBound = false) :
    StyleBinding.bind w bid src = StyleBinding.bindCore w bid b src := by
  simp [StyleBinding.bind, h, hub]

/-- C5: two bindings on the same element whose target properties hyphenate
to the same rule resolve, through `bind`, to the identical observer id: the
per-element cache maps the rule to one id, both bindings reference it, and
it is present in the heap.  Unbinding the first binding leaves the observer
registered in the cache under the same id and intact for the second: its
identity fields are unchanged and every subscriber pair of another binding
— in particular the second binding's own subscription in two-way/from-view
modes — survives. -/
theorem style_observer_sharing (w : World) (bid1 bid2 s1 s2 : Nat)
    (b1 b2 : StyleBinding) (hne : bid1 ≠ bid2)
    (h1 : w.bindings[bid1]? = some b1) (h2 : w.bindings[bid2]? = some b2)
    (hu1 : b1.isBound = false) (hu2 : b2.isBound = false)
    (hkey : hyphenate b1.targetProperty = hyphenate b2.targetProperty)
    (hcw : ∀ q ∈ w.obsCache, q.2 < w.obsHeap.length) :
    ∃ oid o2 o3,
      (StyleBinding.bind (StyleBinding.bind w bid1 s1).1
        bid2 s2).1.bindings[bid1]? = some (b1.asBound s1 oid) ∧
      (StyleBinding.bind (StyleBinding.bind w bid1 s1).1
        bid2 s2).1.bindings[bid2]? = some (b2.asBound s2 oid) ∧
      List.lookup (hyphenate b1.targetProperty)
        (StyleBinding.bind (StyleBinding.bind w bid1 s1).1
          bid2 s2).1.obsCache = some oid ∧
      (StyleBinding.bind (StyleBinding.bind w bid1 s1).1
        bid2 s2).1.obsHeap[oid]? = some o2 ∧
      ((b2.mode = .twoWay ∨ b2.mode = .fromView) →
        (styleObserverContext, bid2) ∈ o2.subs) ∧
      List.lookup (hyphenate b1.targetProperty)
        (StyleBinding.unbind
          (StyleBinding.bind (StyleBinding.bind w bid1 s1).1 bid2 s2).1
          bid1).1.obsCache = some oid ∧
      (StyleBinding.unbind
        (StyleBinding.bind (StyleBinding.bind w bid1 s1).1 bid2 s2).1
        bid1).1.obsHeap[oid]? = some o3 ∧
      o3.cssRule = o2.cssRule ∧ o3.hyphenatedCssRule = o2.hyphenatedCssRule ∧
      (∀ q ∈ o2.subs, q.2 ≠ bid1 → q ∈ o3.subs) ∧
      ((b2.mode = .twoWay ∨ b2.mode = .fromView) →
        (styleObserverContext, bid2) ∈ o3.subs) := by
  have hb1 : StyleBinding.bind w bid1 s1 =
      StyleBinding.bindCore w bid1 b1 s1 :=
    bind_unbound_eq_core w bid1 s1 b1 h1 hu1
  obtain ⟨oid, o1', hbnd1, hlk1, hlko1, hwf1, hhp1, _, _⟩ :=
    bindCore_spec w bid1 s1 b1 hcw
  have hlen1 : bid1 < w.bindings.length := lt_of_getElem?_some h1
  have hW1b2 : (StyleBinding.bind w bid1 s1).1.bindings[bid2]? = some b2 := by
    rw [hb1, hbnd1, List.getElem?_set_ne hne]
    exact h2
  have hW1b1 : (StyleBinding.bind w bid1 s1).1.bindings[bid1]? =
      some (b1.asBound s1 oid) := by
    rw [hb1, hbnd1]
    exact List.getElem?_set_eq_of_lt _ hlen1
  have hb2 : StyleBinding.bind (StyleBinding.bind w bid1 s1).1 bid2 s2 =
      StyleBinding.bindCore (StyleBinding.bind w bid1 s1).1 bid2 b2 s2 :=
    bind_unbound_eq_core (StyleBinding.bind w bid1 s1).1 bid2 s2 b2 hW1b2 hu2
  have hcw1 : ∀ q ∈ (StyleBinding.bind w bid1 s1).1.obsCache,
      q.2 < (StyleBinding.bind w bid1 s1).1.obsHeap.length := by
    rw [hb1]
    exact hwf1
  obtain ⟨oid2, o2', hbnd2, hlk2, hlko2, hwf2, hhp2, hpair2, hfound2⟩ :=
    bindCore_spec (StyleBinding.bind w bid1 s1).1 bid2 s2 b2 hcw1
  have hlkW1 : List.lookup (hyphenate b2.targetProperty)
      (StyleBinding.bind w bid1 s1).1.obsCache = some oid := by
    rw [← hkey, hb1]
    exact hlk1
  have hhpW1 : (StyleBinding.bind w bid1 s1).1.obsHeap[oid]? = some o1' := by
    rw [hb1]
    exact hhp1
  obtain ⟨hoideq, hsub12, hr21, hr22⟩ := hfound2 oid o1' hlkW1 hhpW1
  obtain rfl := hoideq
  have hlen2 : bid2 < (StyleBinding.bind w bid1 s1).1.bindings.length :=
    lt_of_getElem?_some hW1b2
  have hW2b1 : (StyleBinding.bind (StyleBinding.bind w bid1 s1).1
      bid2 s2).1.bindings[bid1]? = some (b1.asBound s1 oid2) := by
    rw [hb2, hbnd2, List.getElem?_set_ne (Ne.symm hne)]
    exact hW1b1
  have hW2b2 : (StyleBinding.bind (StyleBinding.bind w bid1 s1).1
      bid2 s2).1.bindings[bid2]? = some (b2.asBound s2 oid2) := by
    rw [hb2, hbnd2]
    exact List.getElem?_set_eq_of_lt _ hlen2
  have hlkW2 : List.lookup (hyphenate b1.targetProperty)
      (StyleBinding.bind (StyleBinding.bind w bid1 s1).1
        bid2 s2).1.obsCache = some oid2 := by
    rw [hkey, hb2]
    exact hlk2
  have hhpW2 : (StyleBinding.bind (StyleBinding.bind w bid1 s1).1
      bid2 s2).1.obsHeap[oid2]? = some o2' := by
    rw [hb2]
    exact hhp2
  have hub : (StyleBinding.unbind
      (StyleBinding.bind (StyleBinding.bind w bid1 s1).1 bid2 s2).1 bid1).1 =
      (InlineStyleObserver.unsubscribe
        (World.withBindingSet
          (StyleBinding.bind (StyleBinding.bind w bid1 s1).1 bid2 s2).1 bid1
          { (b1.asBound s1 oid2) with
              isBound := false, source := none, styleObserver := none })
        oid2 styleObserverContext bid1).1 :=
    unbind_char _ bid1 oid2 (b1.asBound s1 oid2) hW2b1 rfl rfl
  have hhpW2' : (World.withBindingSet
      (StyleBinding.bind (StyleBinding.bind w bid1 s1).1 bid2 s2).1 bid1
      { (b1.asBound s1 oid2) with
          isBound := false, source := none,
          styleObserver := none }).obsHeap[oid2]? = some o2' := by
    simpa [World.withBindingSet] using hhpW2
  obtain ⟨o3, ho3, hc31, hc32, hsubs3⟩ :=
    unsubscribe_heap_spec _ oid2 styleObserverContext bid1 o2' hhpW2'
  have hcache3 : (InlineStyleObserver.unsubscribe
      (World.withBindingSet
        (StyleBinding.bind (StyleBinding.bind w bid1 s1).1 bid2 s2).1 bid1
        { (b1.asBound s1 oid2) with
            isBound := false, source := none, styleObserver := none })
      oid2 styleObserverContext bid1).1.obsCache =
      (StyleBinding.bind (StyleBinding.bind w bid1 s1).1
        bid2 s2).1.obsCache := by
    have hfr := unsubscribe_frame
      (World.withBindingSet
        (StyleBinding.bind (StyleBinding.bind w bid1 s1).1 bid2 s2).1 bid1
        { (b1.asBound s1 oid2) with
            isBound := false, source := none, styleObserver := none })
      oid2 styleObserverContext bid1
    rw [hfr.2.2.2.2]
    simp [World.withBindingSet]
  refine ⟨oid2, o2', o3, hW2b1, hW2b2, hlkW2, hhpW2, hpair2, ?_, ?_, hc31,
    hc32, ?_, ?_⟩
  · rw [hub, hcache3]
    exact hlkW2
  · rw [hub]
    exact ho3
  · intro q hq hqne
    refine hsubs3 q hq ?_
    intro he
    exact hqne (by rw [he])
  · intro hm
    refine hsubs3 (styleObserverContext, bid2) (hpair2 hm) ?_
    intro hcontra
    exact hne (congrArg Prod.snd hcontra).symm

/-- An unbound two-way binding on the camel-case spelling. -/
def sampleShare1 : StyleBinding :=
  { targetProperty := "backgroundColor", mode := .twoWay }

/-- An unbound two-way binding on the hyphenated spelling. -/
def sampleShare2 : StyleBinding :=
  { targetProperty := "background-color", mode := .twoWay }

/-- A sample world holding the two spellings' bindings, no observers yet. -/
def sampleShareWorld : World :=
  { style := [], hasStyleAttr := false, obsHeap := [], obsCache := [],
    bindings := [sampleShare1, sampleShare2],
    sources := [JSVal.str "blue", JSVal.str "green"] }

/-- C5 witness: instantiation of `style_observer_sharing` on
`sampleShareWorld` — `backgroundColor` and `background-color` share one
observer, and unbinding the first leaves it intact for the second. -/
theorem style_observer_sharing_witness :
    (0 : Nat) ≠ 1 ∧
    sampleShareWorld.bindings[0]? = some sampleShare1 ∧
    sampleShareWorld.bindings[1]? = some sampleShare2 ∧
    sampleShare1.isBound = false ∧
    sampleShare2.isBound = false ∧
    hyphenate sampleShare1.targetProperty =
      hyphenate sampleShare2.targetProperty ∧
    (∀ q ∈ sampleShareWorld.obsCache,
      q.2 < sampleShareWorld.obsHeap.length) ∧
    (∃ oid o2 o3,
      (StyleBinding.bind (StyleBinding.bind sampleShareWorld 0 0).1
        1 1).1.bindings[0]? = some (sampleShare1.asBound 0 oid) ∧
      (StyleBinding.bind (StyleBinding.bind sampleShareWorld 0 0).1
        1 1).1.bindings[1]? = some (sampleShare2.asBound 1 oid) ∧
      List.lookup (hyphenate sampleShare1.targetProperty)
        (StyleBinding.bind (StyleBinding.bind sampleShareWorld 0 0).1
          1 1).1.obsCache = some oid ∧
      (StyleBinding.bind (StyleBinding.bind sampleShareWorld 0 0).1
        1 1).1.obsHeap[oid]? = some o2 ∧
      ((sampleShare2.mode = .twoWay ∨ sampleShare2.mode = .fromView) →
        (styleObserverContext, 1) ∈ o2.subs) ∧
      List.lookup (hyphenate sampleShare1.targetProperty)
        (StyleBinding.unbind
          (StyleBinding.bind (StyleBinding.bind sampleShareWorld 0 0).1
            1 1).1 0).1.obsCache = some oid ∧
      (StyleBinding.unbind
        (StyleBinding.bind (StyleBinding.bind sampleShareWorld 0 0).1
          1 1).1 0).1.obsHeap[oid]? = some o3 ∧
      o3.cssRule = o2.cssRule ∧ o3.hyphenatedCssRule = o2.hyphenatedCssRule ∧
      (∀ q ∈ o2.subs, q.2 ≠ 0 → q ∈ o3.subs) ∧
      ((sampleShare2.mode = .twoWay ∨ sampleShare2.mode = .fromView) →
        (styleObserverContext, 1) ∈ o3.subs)) :=
  ⟨by decide, rfl, rfl, rfl, rfl, by decide, by simp [sampleShareWorld],
    style_observer_sharing sampleShareWorld 0 1 0 1 sampleShare1 sampleShare2
      (by decide) rfl rfl rfl rfl (by decide) (by simp [sampleShareWorld])⟩
